import Mathlib

/-!
Shallow embedding of the hypershare HTTP file-sharing server
(src/src/http/mod.rs and src/src/http/post_buffer/mod.rs), together with
theorems settling the frozen claims about its specification.

Modelling conventions:
* Machine integers (usize) are modelled as `Nat`; every place where Rust
  truncating subtraction on usize is guarded by a comparison in the source,
  the Lean `Nat` subtraction agrees with the source.
* Byte buffers are `List Nat`; Rust strings are `List Char` and the
  UTF-8 decoding helpers are modelled on the ASCII fragment.
* Socket and file I/O results are passed in as explicit inputs (the bytes a
  read delivered, the byte count a write accepted); file writes through an
  open handle are modelled as complete writes.
* The repository modules that are not part of the given sources
  (http_core, boyer_moore, rendering, post_buffer/types.rs and the
  Boyer-Moore search crate) are modelled from the spec; each such
  definition carries a doc comment saying so.
-/

namespace Hypershare

/-- Boolean prefix test on lists, used to model exact substring search. -/
def isPrefixList [DecidableEq α] : List α → List α → Bool
  | [], _ => true
  | _ :: _, [] => false
  | a :: as, b :: bs => if a = b then isPrefixList as bs else false

/-- Leftmost offset at which `pat` occurs as a contiguous sublist, the result
of the exact-substring search collaborator (the Boyer-Moore crate is not in
the sources; only match offsets matter). -/
def firstOccur [DecidableEq α] (pat : List α) : List α → Option Nat
  | [] => if isPrefixList pat [] then some 0 else none
  | a :: rest =>
    if isPrefixList pat (a :: rest) then some 0
    else (firstOccur pat rest).map (· + 1)

/-- Index of the first element equal to `c`, modelling Rust str::find. -/
def findIdxChar (c : Char) : List Char → Option Nat
  | [] => none
  | a :: rest => if a = c then some 0 else (findIdxChar c rest).map (· + 1)

/-- ASCII lowercase map, modelling Rust str::to_lowercase on ASCII input. -/
def toLowerChars (s : List Char) : List Char := s.map Char.toLower

/-- Left trim of whitespace, modelling Rust str::trim_start on ASCII input. -/
def trimStartChars : List Char → List Char
  | [] => []
  | c :: rest => if c.isWhitespace then trimStartChars rest else c :: rest

/-- Right trim of whitespace, via reversal. -/
def trimEndChars (s : List Char) : List Char :=
  (trimStartChars s.reverse).reverse

/-- Both-ends trim, modelling Rust str::trim on ASCII input. -/
def trimChars (s : List Char) : List Char := trimEndChars (trimStartChars s)

/-- Fuel-driven splitter used by `splitSub`; the fuel is the length of the
remaining input, which each step consumes at least one element of. -/
def splitSubAux (sep : List Char) : Nat → List Char → List Char → List (List Char)
  | 0, acc, s => [acc.reverse ++ s]
  | _ + 1, acc, [] => [acc.reverse]
  | fuel + 1, acc, c :: rest =>
    if sep ≠ [] ∧ isPrefixList sep (c :: rest) then
      acc.reverse :: splitSubAux sep fuel [] (rest.drop (sep.length - 1))
    else
      splitSubAux sep fuel (c :: acc) rest

/-- Split on a separator substring, modelling Rust str::split (non-overlapping,
left to right, keeping empty segments). -/
def splitSub (sep : List Char) (s : List Char) : List (List Char) :=
  splitSubAux sep s.length [] s

/-- Digits-only part of the usize parse: nonempty, all ASCII digits. -/
def parseUsizeDigits (t : List Char) : Option Nat :=
  if t ≠ [] ∧ t.all Char.isDigit then
    some (t.foldl (fun acc c => acc * 10 + (c.toNat - 48)) 0)
  else none

/-- Decimal parse modelling str::parse::<usize>: optional leading plus
sign, then at least one ASCII digit.  usize overflow is not modelled (the
claims never involve values near 2^64). -/
def parseUsize (s : List Char) : Option Nat :=
  match s with
  | '+' :: rest => parseUsizeDigits rest
  | other => parseUsizeDigits other

/-- Bytes to characters, modelling String::from_utf8_lossy on ASCII data. -/
def bytesToChars (bs : List Nat) : List Char := bs.map Char.ofNat

/-- Characters to bytes, for ASCII strings fed into byte-level search. -/
def charsToBytes (cs : List Char) : List Nat := cs.map Char.toNat

/-- Modelled from the spec: the HTTP statuses used by the server (the
http_core module is not in the sources; the spec lists the statuses in
its external-interfaces section). -/
inductive HttpStatus where
  | Continue
  | OK
  | Created
  | PartialContent
  | MovedPermanently
  | BadRequest
  | PermissionDenied
  | NotFound
  | MethodNotAllowed
  | PayloadTooLarge
  | UnprocessableEntity
  | RequestHeadersTooLarge
  | ServerError
  | NotImplemented
  | ServiceUnavailable
deriving DecidableEq

/-- Numeric code of each status, per the spec. -/
def HttpStatus.code : HttpStatus → Nat
  | .Continue => 100
  | .OK => 200
  | .Created => 201
  | .PartialContent => 206
  | .MovedPermanently => 301
  | .BadRequest => 400
  | .PermissionDenied => 403
  | .NotFound => 404
  | .MethodNotAllowed => 405
  | .PayloadTooLarge => 413
  | .UnprocessableEntity => 422
  | .RequestHeadersTooLarge => 431
  | .ServerError => 500
  | .NotImplemented => 501
  | .ServiceUnavailable => 503

/-- Modelled from the spec: request methods understood by the server. -/
inductive HttpMethod where
  | GET
  | HEAD
  | POST
deriving DecidableEq

/-- Modelled from the spec: the HTTP versions the server distinguishes. -/
inductive HttpVersion where
  | Http1_0
  | Http1_1
deriving DecidableEq

/-- Kinds of OS errors the server distinguishes (io::ErrorKind restricted to
what resolve_io_error inspects). -/
inductive IoErrorKind where
  | notFound
  | permissionDenied
  | otherErr
deriving DecidableEq

/-- Embeds resolve_io_error (src/src/http/mod.rs): translate an OS error kind
to an HTTP status when possible. -/
def resolve_io_error : IoErrorKind → Option HttpStatus
  | .notFound => some .NotFound
  | .permissionDenied => some .PermissionDenied
  | .otherErr => none

/-- Modelled from the spec: the upload parser queued composite error
(post_buffer/types.rs is not in the sources).  It accumulates status/reason
pairs; the reported code is the first accumulated status. -/
structure PostBufferError where
  errors : List (HttpStatus × List Char)
deriving DecidableEq

/-- Modelled from the spec: the empty composite error. -/
def PostBufferError.no_error : PostBufferError := ⟨[]⟩

/-- Modelled from the spec: a fresh single error (PostBufferError::new). -/
def PostBufferError.new (st : HttpStatus) (msg : List Char) : PostBufferError :=
  ⟨[(st, msg)]⟩

/-- Modelled from the spec: a fresh 500 error (PostBufferError::server_error). -/
def PostBufferError.server_error (msg : List Char) : PostBufferError :=
  PostBufferError.new .ServerError msg

/-- Modelled from the spec: accumulate another error into the composite. -/
def PostBufferError.add_error (e e₂ : PostBufferError) : PostBufferError :=
  ⟨e.errors ++ e₂.errors⟩

/-- Modelled from the spec: the status the composite error reports. -/
def PostBufferError.get_code (e : PostBufferError) : HttpStatus :=
  ((e.errors.head?).map Prod.fst).getD .ServerError

/-- A filesystem path, as its canonical components. -/
abbrev FsPath := List (List Char)

/-- The destination-directory filesystem visible to the upload parser: the
files that exist, with their byte contents. -/
structure Disk where
  files : List (FsPath × List Nat)
deriving DecidableEq

/-- Content of a file on the disk, if present. -/
def Disk.lookup (d : Disk) (p : FsPath) : Option (List Nat) :=
  (d.files.find? (fun e => e.1 = p)).map Prod.snd

/-- Exclusive creation (OpenOptions create_new): fails when the file exists. -/
def Disk.createNew (d : Disk) (p : FsPath) : Option Disk :=
  if (d.lookup p).isSome then none else some ⟨(p, []) :: d.files⟩

/-- Append bytes to a file through its open handle; writes are modelled as
complete. -/
def Disk.appendFile (d : Disk) (p : FsPath) (bs : List Nat) : Disk :=
  ⟨d.files.map (fun e => if e.1 = p then (e.1, e.2 ++ bs) else e)⟩

/-- Delete a file (fs::remove_file): fails when the file is absent. -/
def Disk.removeFile (d : Disk) (p : FsPath) : Option Disk :=
  if (d.lookup p).isSome then some ⟨d.files.filter (fun e => ¬ e.1 = p)⟩
  else none

/-- Embeds PostRequestState (src/src/http/post_buffer/mod.rs). -/
inductive PostRequestState where
  | AwaitingFirstBody
  | AwaitingBody
  | AwaitingMeta
  | DiscardingData
deriving DecidableEq

/-- Embeds POST_BUFFER_SIZE (src/src/http/post_buffer/mod.rs): 32 MiB. -/
def POST_BUFFER_SIZE : Nat := 32 * 1024 * 1024

/-- Embeds struct PostBuffer (src/src/http/post_buffer/mod.rs).  The
Boyer-Moore search structure and the delimiter string are the same data, so
only the byte string is kept.  The open file handle is identified by the path
it writes to. -/
structure PostBuffer where
  fill_location : Nat
  buffer : List Nat
  post_delimeter_string : List Nat
  current_filename : Option FsPath
  current_file : Option FsPath
  state : PostRequestState
  dir : FsPath
  parse_idx : Nat
  queued_error : PostBufferError
  new_files : List (List Char)
  total_written : Nat
  size_limit : Nat
deriving DecidableEq

/-- Embeds PostBuffer::new.  The uninitialized tail of the 32 MiB working
buffer is modelled as zero bytes (the source never reads past fill_location
except in the DiscardingData shuffles, where any content is acceptable).
Rust would panic if the seed slice exceeded the buffer; the model truncates,
and theorems about construction assume the in-range case. -/
def PostBuffer.new (dir : FsPath) (delim_str : List Nat) (slice : List Nat)
    (size_limit : Nat) : PostBuffer where
  fill_location := slice.length
  buffer := (slice ++ List.replicate (POST_BUFFER_SIZE - slice.length) 0).take POST_BUFFER_SIZE
  post_delimeter_string := delim_str
  current_filename := none
  current_file := none
  state := .AwaitingFirstBody
  dir := dir
  parse_idx := 0
  queued_error := .no_error
  new_files := []
  total_written := 0 + slice.length
  size_limit := size_limit

/-- Embeds PostBuffer::get_new_files. -/
def PostBuffer.get_new_files (pb : PostBuffer) : List (List Char) := pb.new_files

/-- Embeds PostBuffer::read_into_buffer: one bounded read into the remaining
capacity.  `input` is what the socket delivered; it is clamped to the free
space as the Rust read call would be.  Returns the byte count read. -/
def PostBuffer.read_into_buffer (pb : PostBuffer) (input : List Nat) :
    Nat × PostBuffer :=
  let r := min input.length (pb.buffer.length - pb.fill_location)
  (r, { pb with
         buffer := pb.buffer.take pb.fill_location ++ input.take r ++
                   pb.buffer.drop (pb.fill_location + r)
         fill_location := pb.fill_location + r })

/-- Embeds PostBuffer::find_next_delim: leftmost occurrence of the delimiter
in buffer[start..fill_location], as an absolute offset. -/
def PostBuffer.find_next_delim (pb : PostBuffer) (start : Nat) : Option Nat :=
  (firstOccur pb.post_delimeter_string
    ((pb.buffer.drop start).take (pb.fill_location - start))).map (· + start)

/-- Embeds PostBuffer::shuffle: compact `remain` bytes starting at parse_idx
down to offset 0.  When the source range runs past the end of the physical
buffer (possible in the DiscardingData shuffles) the Rust code reads out of
bounds; the model keeps the old bytes at those positions, which is one
choice of garbage. -/
def PostBuffer.shuffle (pb : PostBuffer) (remain : Nat) : PostBuffer :=
  let seg := (pb.buffer.drop pb.parse_idx).take remain
  { pb with
    buffer := seg ++ pb.buffer.drop seg.length
    parse_idx := 0
    fill_location := remain }

/-- Embeds PostBuffer::write_and_shuffle: flush buffer[parse_idx..up_to] to
the open file, enforcing the size limit before writing, then compact.  The
`none` current_file case models the Rust unwrap panic; it is unreachable from
the guarded callers. -/
def PostBuffer.write_and_shuffle (pb : PostBuffer) (d : Disk) (up_to : Nat) :
    Except PostBufferError Unit × PostBuffer × Disk :=
  if up_to ≤ pb.parse_idx then (.ok (), pb, d)
  else if 0 < pb.size_limit ∧
      pb.size_limit < pb.total_written + (up_to - pb.parse_idx) then
    (.error (PostBufferError.new .PayloadTooLarge
      "Upload size limit exceeded".toList), pb, d)
  else
    match pb.current_file with
    | none =>
      (.error (PostBufferError.server_error
        "Write with no open file handle".toList), pb, d)
    | some fname =>
      let bytes := (pb.buffer.drop pb.parse_idx).take (up_to - pb.parse_idx)
      let written := bytes.length
      let d' := d.appendFile fname bytes
      let pb' := { pb with
        parse_idx := pb.parse_idx + written
        total_written := pb.total_written + written }
      let amount_remaining := pb'.fill_location - pb'.parse_idx
      (.ok (), pb'.shuffle amount_remaining, d')

/-- Embeds PostBuffer::write_to_file_final: final flush of a part body, then
forget the open handle. -/
def PostBuffer.write_to_file_final (pb : PostBuffer) (d : Disk) (limit : Nat) :
    Except PostBufferError Unit × PostBuffer × Disk :=
  if pb.current_file.isNone then
    (.error (PostBufferError.server_error
      "Attempted to write to a file before opening it.".toList), pb, d)
  else if pb.fill_location < limit then
    (.error (PostBufferError.server_error
      "Asked to write more than avaiable".toList), pb, d)
  else
    match pb.write_and_shuffle d limit with
    | (.error e, pb', d') => (.error e, pb', d')
    | (.ok _, pb', d') => (.ok (), { pb' with current_file := none }, d')

/-- Embeds PostBuffer::send_buffer_data_to_file: flush all but the trailing
delimiter-length bytes, which might hold a partial boundary. -/
def PostBuffer.send_buffer_data_to_file (pb : PostBuffer) (d : Disk)
    (limit : Nat) : Except PostBufferError Unit × PostBuffer × Disk :=
  if pb.current_file.isNone then
    (.error (PostBufferError.server_error
      "Attempted to write to a file before opening it.".toList), pb, d)
  else if limit < pb.post_delimeter_string.length then
    (.error (PostBufferError.server_error
      "Not enough data to write anything.".toList), pb, d)
  else
    pb.write_and_shuffle d (limit - pb.post_delimeter_string.length)

/-- Modelled from the spec: the collaborator locating the header/body
blank-line separator (boyer_moore::find_body_start is not in the sources);
returns the offset just past the CRLFCRLF separator. -/
def find_body_start (buf : List Nat) : Option Nat :=
  (firstOccur [13, 10, 13, 10] buf).map (· + 4)

/-- Embeds the Content-Disposition scan of the AwaitingMeta arm
(src/src/http/post_buffer/mod.rs lines 346-357): the value after the first
case-insensitive Content-Disposition header, or [] when absent. -/
def content_disposition_info (meta_str : List Char) : List Char :=
  go (splitSub ['\r', '\n'] meta_str)
where
  go : List (List Char) → List Char
    | [] => []
    | line :: rest =>
      match findIdxChar ':' line with
      | none => go rest
      | some i =>
        let head := line.take (i + 1)
        let val := line.drop (i + 1)
        if toLowerChars head = "content-disposition:".toList then val
        else go rest

/-- Embeds the filename attribute scan of the AwaitingMeta arm
(src/src/http/post_buffer/mod.rs lines 365-375): the trimmed value of the
first filename attribute, or [] when absent. -/
def filename_from_info (info : List Char) : List Char :=
  go (splitSub [';'] info)
where
  go : List (List Char) → List Char
    | [] => []
    | kv :: rest =>
      match findIdxChar '=' kv with
      | none => go rest
      | some i =>
        let k := kv.take i
        let v := kv.drop i
        if trimStartChars k = "filename".toList then trimChars (v.drop 1)
        else go rest

deriving instance DecidableEq for Except

/-- One iteration of the PostBuffer::handle_new_data_raw loop: either a
return from the function or the continuation state for the next iteration. -/
inductive StepOut where
  | ret (r : Except PostBufferError Bool) (pb : PostBuffer) (d : Disk)
  | again (pb : PostBuffer) (d : Disk)
deriving DecidableEq

/-- Embeds the body of the PostBuffer::handle_new_data_raw loop, one
iteration per call (the Rust function loops until it returns; `rawFuel`
below adds the loop). -/
def stepRaw (pb : PostBuffer) (d : Disk) : StepOut :=
  match pb.state with
  | .DiscardingData =>
    match pb.find_next_delim pb.parse_idx with
    | none => .ret (.ok false) (pb.shuffle pb.post_delimeter_string.length) d
    | some idx =>
      let new_idx := idx + pb.post_delimeter_string.length
      if pb.fill_location - new_idx < 2 then
        .ret (.ok false) (pb.shuffle (pb.post_delimeter_string.length + 2)) d
      else if pb.buffer.getD new_idx 0 = 45 ∧ pb.buffer.getD (new_idx + 1) 0 = 45 then
        .ret (.ok true) pb d
      else
        .again (pb.shuffle pb.post_delimeter_string.length) d
  | .AwaitingFirstBody =>
    match pb.find_next_delim pb.parse_idx with
    | none => .ret (.ok false) pb d
    | some idx =>
      let new_idx := idx + pb.post_delimeter_string.length
      if pb.fill_location - new_idx < 2 then
        .ret (.ok false) pb d
      else if pb.buffer.getD new_idx 0 = 45 ∧ pb.buffer.getD (new_idx + 1) 0 = 45 then
        .ret (.ok true) pb d
      else
        .again { pb with parse_idx := new_idx + 2, state := .AwaitingMeta } d
  | .AwaitingBody =>
    match pb.find_next_delim pb.parse_idx with
    | none =>
      match pb.send_buffer_data_to_file d pb.fill_location with
      | (.error e, pb', d') => .ret (.error e) pb' d'
      | (.ok _, pb', d') => .ret (.ok false) pb' d'
    | some idx =>
      if idx < 2 then
        .ret (.error (PostBufferError.new .BadRequest
          "No CRLF before delimeter. Malformed request.".toList)) pb d
      else
        match pb.write_to_file_final d (idx - 2) with
        | (.error e, pb', d') => .ret (.error e) pb' d'
        | (.ok _, pb', d') => .again { pb' with state := .AwaitingFirstBody } d'
  | .AwaitingMeta =>
    match find_body_start ((pb.buffer.drop pb.parse_idx).take
        (pb.fill_location - pb.parse_idx)) with
    | none => .ret (.ok false) pb d
    | some i =>
      let body_start := i + pb.parse_idx
      let meta := (pb.buffer.drop pb.parse_idx).take (body_start - pb.parse_idx)
      let meta_str := bytesToChars meta
      let info := content_disposition_info meta_str
      if info = [] then
        .ret (.error (PostBufferError.new .UnprocessableEntity
          "Did not receive a Content-Disposition".toList)) pb d
      else
        let filename0 := filename_from_info info
        if filename0 = [] then
          .ret (.error (PostBufferError.new .UnprocessableEntity
            "Could not find attribute with a filename".toList)) pb d
        else if filename0.contains '/' then
          .ret (.error (PostBufferError.new .UnprocessableEntity
            "Invalid filename".toList)) pb d
        else
          let filename := if filename0.head? = some '"' then
              (filename0.drop 1).dropLast else filename0
          let pb₁ := { pb with new_files := pb.new_files ++ [filename] }
          let real_filename := pb₁.dir ++ [filename]
          match d.createNew real_filename with
          | none =>
            .ret (.error (PostBufferError.server_error
              "Could not open file for writing".toList)) pb₁ d
          | some d' =>
            .again { pb₁ with
              current_file := some real_filename
              current_filename := some real_filename
              state := .AwaitingBody
              parse_idx := body_start } d'

/-- Embeds the PostBuffer::handle_new_data_raw loop, with explicit fuel for
the iteration count; `none` means the fuel ran out before the function
returned. -/
def rawFuel : Nat → PostBuffer → Disk →
    Option (Except PostBufferError Bool × PostBuffer × Disk)
  | 0, _, _ => none
  | fuel + 1, pb, d =>
    match stepRaw pb d with
    | .ret r pb' d' => some (r, pb', d')
    | .again pb' d' => rawFuel fuel pb' d'

/-- Embeds PostBuffer::handle_new_data: run the raw parser and, when it
errors, delete the current file (best effort, appending any deletion failure
to the error) and forget the handle. -/
def handle_new_data (fuel : Nat) (pb : PostBuffer) (d : Disk) :
    Option (Except PostBufferError Bool × PostBuffer × Disk) :=
  match rawFuel fuel pb d with
  | none => none
  | some (.ok b, pb', d') => some (.ok b, pb', d')
  | some (.error e, pb', d') =>
    match pb'.current_filename with
    | none => some (.error e, pb', d')
    | some s =>
      match d'.removeFile s with
      | some d'' =>
        some (.error e,
          { pb' with current_filename := none, current_file := none }, d'')
      | none =>
        some (.error (e.add_error (PostBufferError.server_error
            "Could not remove file".toList)),
          { pb' with current_filename := none, current_file := none }, d')

/-- Embeds PostBuffer::handle_new_data_queue_error: on error, switch to
DiscardingData and accumulate into the queued composite error, looping; the
composite is surfaced only when draining finishes.  Fuel bounds the retry
loop. -/
def handle_new_data_queue_error : Nat → PostBuffer → Disk →
    Option (Except PostBufferError Bool × PostBuffer × Disk)
  | 0, _, _ => none
  | fuel + 1, pb, d =>
    match handle_new_data (fuel + 1) pb d with
    | none => none
    | some (.ok done, pb', d') =>
      if done ∧ pb'.state = .DiscardingData then
        some (.error pb'.queued_error, pb', d')
      else
        some (.ok done, pb', d')
    | some (.error s, pb', d') =>
      handle_new_data_queue_error fuel
        { pb' with
          state := .DiscardingData
          queued_error := pb'.queued_error.add_error s } d'

/-- Embeds struct ContentRange (src/src/http/mod.rs). -/
structure ContentRange where
  start : Nat
  len : Option Nat
deriving DecidableEq

/-- Embeds decode_content_range (src/src/http/mod.rs): decode a Range header
value of the form bytes=start-end, both ends optional. -/
def decode_content_range (range_str : List Char) : Option ContentRange :=
  if ¬ isPrefixList "bytes=".toList range_str then none
  else
    match findIdxChar '=' range_str with
    | none => none
    | some eq_ind =>
      match findIdxChar '-' range_str with
      | none => none
      | some dash_ind =>
        let start_str := (range_str.drop (eq_ind + 1)).take (dash_ind - (eq_ind + 1))
        let end_str := range_str.drop (dash_ind + 1)
        let start_int : Option Nat :=
          if 0 < start_str.length then parseUsize start_str else some 0
        let end_int : Option (Option Nat) :=
          if 0 < end_str.length then
            match parseUsize end_str with
            | some i => some (some i)
            | none => none
          else some none
        match start_int, end_int with
        | some start_v, some (some end_v) =>
          if end_v = 0 ∨ start_v > end_v then none
          else some ⟨start_v, some (1 + end_v - start_v)⟩
        | some start_v, some none => some ⟨start_v, none⟩
        | _, _ => none

/-- Modelled from the spec: the HttpParser output — method, path, version and
headers (http_core is not in the sources).  Header keys are stored
lowercased. -/
structure HttpRequest where
  method : Option HttpMethod
  path : List Char
  version : HttpVersion
  headers : List (List Char × List Char)
deriving DecidableEq

/-- Modelled from the spec: header lookup by lowercase name. -/
def HttpRequest.get_header (req : HttpRequest) (name : List Char) :
    Option (List Char) :=
  (req.headers.find? (fun h => h.1 = name)).map Prod.snd

/-- Modelled from the spec: decode a method token. -/
def methodOfChars (s : List Char) : Option HttpMethod :=
  if s = "GET".toList then some .GET
  else if s = "HEAD".toList then some .HEAD
  else if s = "POST".toList then some .POST
  else none

/-- Modelled from the spec: decode a version token. -/
def versionOfChars (s : List Char) : HttpVersion :=
  if s = "HTTP/1.1".toList then .Http1_1 else .Http1_0

/-- Modelled from the spec: header lines become lowercased key/value pairs;
lines without a colon are skipped. -/
def parseHeaderLines : List (List Char) → List (List Char × List Char)
  | [] => []
  | line :: rest =>
    match findIdxChar ':' line with
    | none => parseHeaderLines rest
    | some i =>
      (toLowerChars (line.take i), trimStartChars (line.drop (i + 1))) ::
        parseHeaderLines rest

/-- Modelled from the spec: HttpRequest::new parses the request line and the
header block, failing on a malformed request line. -/
def HttpRequest.new (s : List Char) : Except HttpStatus HttpRequest :=
  match splitSub ['\r', '\n'] s with
  | [] => .error .BadRequest
  | reqline :: rest =>
    match splitSub [' '] reqline with
    | m :: p :: v :: _ =>
      .ok ⟨methodOfChars m, p, versionOfChars v, parseHeaderLines rest⟩
    | _ => .error .BadRequest

/-- Embeds decode_request (src/src/http/mod.rs): UTF-8 decode (modelled on
the ASCII fragment: any byte above 127 is treated as a decode failure) then
request parsing. -/
def decode_request (req_body : List Nat) : Except HttpStatus HttpRequest :=
  if req_body.all (fun b => b < 128) then HttpRequest.new (bytesToChars req_body)
  else .error .BadRequest

/-- Modelled from the spec: a pending response body source; only kind,
length and read position matter. -/
inductive ResponseDataType where
  | stringData (len : Nat)
  | fileData (path : FsPath)
deriving DecidableEq

/-- Modelled from the spec: a pending response — status, headers and a body
source; headers are serialized before any body byte. -/
structure HttpResponse where
  status : HttpStatus
  version : HttpVersion
  headers : List (List Char × List Char)
  content_length : Option Nat
  body : Option ResponseDataType
  body_cursor : Nat
deriving DecidableEq

/-- Modelled from the spec: HttpResponse::new. -/
def HttpResponse.new (status : HttpStatus) (version : HttpVersion) :
    HttpResponse :=
  ⟨status, version, [], none, none, 0⟩

/-- Modelled from the spec: append a header. -/
def HttpResponse.add_header (r : HttpResponse) (k v : List Char) :
    HttpResponse :=
  { r with headers := r.headers ++ [(k, v)] }

/-- Modelled from the spec: record the Content-Length. -/
def HttpResponse.set_content_length (r : HttpResponse) (n : Nat) :
    HttpResponse :=
  { r with content_length := some n }

/-- Modelled from the spec: attach the body source. -/
def HttpResponse.add_body (r : HttpResponse) (b : ResponseDataType) :
    HttpResponse :=
  { r with body := some b }

/-- Modelled from the spec: drop the body (used for HEAD). -/
def HttpResponse.clear_body (r : HttpResponse) : HttpResponse :=
  { r with body := none }

/-- Embeds enum HttpResult (src/src/http/mod.rs). -/
inductive HttpResult where
  | Response (resp : HttpResponse) (range : Nat)
  | Error (status : HttpStatus) (msg : Option (List Char))
  | ReadRequestBody
deriving DecidableEq

/-- Embeds enum ConnectionState (src/src/http/mod.rs). -/
inductive ConnectionState where
  | ReadingRequest
  | ReadingPostBody
  | WritingResponse
  | Closing
deriving DecidableEq

/-- Embeds BUFFER_SIZE (src/src/http/mod.rs): the fixed header buffer size. -/
def BUFFER_SIZE : Nat := 4096

/-- Embeds struct HttpConnection (src/src/http/mod.rs).  `buffer` holds the
filled prefix of the fixed 4096-byte header buffer (its length equals
bytes_read in every reachable state); the socket handle is external. -/
structure HttpConnection where
  state : ConnectionState
  buffer : List Nat
  bytes_read : Nat
  body_start_location : Nat
  post_buffer : Option PostBuffer
  response : Option HttpResponse
  last_requested_method : Option HttpMethod
  last_requested_uri : Option (List Char)
  num_requests : Nat
  keep_alive : Bool
  bytes_requested : Nat
  bytes_sent : Nat
deriving DecidableEq

/-- Embeds HttpConnection::new: note keep_alive starts true. -/
def HttpConnection.new : HttpConnection where
  state := .ReadingRequest
  buffer := []
  bytes_read := 0
  body_start_location := 0
  post_buffer := none
  response := none
  last_requested_method := none
  last_requested_uri := none
  num_requests := 0
  keep_alive := true
  bytes_requested := 0
  bytes_sent := 0

/-- Embeds HttpConnection::reset: clear buffer fill, response and upload
state between keep-alive requests. -/
def HttpConnection.reset (conn : HttpConnection) : HttpConnection :=
  { conn with bytes_read := 0, buffer := [], response := none,
              post_buffer := none }

/-- Embeds the configuration fields of struct HttpTui (src/src/http/mod.rs);
the listening socket and history channel are external. -/
structure HttpTui where
  root_dir : FsPath
  dir_listings : Bool
  disabled : Bool
  uploading : Bool
  upload_size_limit : Nat
  index_file : List Char
  no_index_file : Bool
  no_append_slash : Bool

/-- Metadata the server reads from the filesystem about a path. -/
structure FileMetadata where
  is_dir : Bool
  is_file : Bool
  len : Nat
deriving DecidableEq

/-- The filesystem as the GET/POST handlers see it: canonicalization,
metadata queries, file opening, and the rendered directory listing (the
Renderer collaborator is not in the sources). -/
structure FsEnv where
  canonicalize : List Char → Except IoErrorKind FsPath
  metadata : FsPath → Except IoErrorKind FileMetadata
  openFileOk : FsPath → Except IoErrorKind Unit
  render_directory : List Char → FsPath → Bool → List Char

/-- Embeds get_and_check_canon_path (src/src/http/mod.rs): canonicalize, then
require the result be a descendant of the root; an escape yields Ok(None),
mapped to 404 by the callers. -/
def get_and_check_canon_path (env : FsEnv) (root_dir : FsPath)
    (path : List Char) : Except IoErrorKind (Option FsPath) :=
  match env.canonicalize path with
  | .error e => .error e
  | .ok canonical_path =>
    if isPrefixList root_dir canonical_path then .ok (some canonical_path)
    else .ok none

/-- Embeds the leading-separator strip shared by handle_get and handle_post. -/
def normalize_path (p : List Char) : List Char :=
  if isPrefixList "/".toList p then p.drop 1 else p

/-- Path join feeding canonicalization: the root components followed by the
relative request path (only canonicalize ever consumes this string). -/
def joinPath (root : FsPath) (rel : List Char) : List Char :=
  root.foldr (fun comp acc => comp ++ '/' :: acc) rel

/-- Decimal digits of a number, for header formatting. -/
def natChars (n : Nat) : List Char := Nat.toDigits 10 n

/-- Suffix test on char lists, modelling str::ends_with. -/
def endsWithChars (suffix s : List Char) : Bool :=
  isPrefixList suffix.reverse s.reverse

/-- Embeds the Range-resolution block of handle_get (src/src/http/mod.rs
lines 674-691): decode failure is the 400 branch; otherwise the start and
length are clamped to the resource length and the used-range flag is set. -/
def resolveRange (hdr : Option (List Char)) (full_length : Nat) :
    Except Unit (Nat × Nat × Bool) :=
  match hdr with
  | some content_range_str =>
    match decode_content_range content_range_str with
    | some content_range =>
      let real_start := min content_range.start full_length
      let real_len :=
        match content_range.len with
        | some len => min len (full_length - real_start)
        | none => full_length - real_start
      .ok (real_start, real_len, true)
    | none => .error ()
  | none => .ok (0, full_length, false)

/-- Embeds the index-file substitution block of handle_get
(src/src/http/mod.rs lines 617-630): inside a directory, try the index
file; on failure keep the directory itself. -/
def index_substitute (env : FsEnv) (tui : HttpTui) (canonical_path₀ : FsPath)
    (original_metadata : FileMetadata) : FsPath × FileMetadata :=
  if original_metadata.is_dir ∧ ¬ tui.no_index_file then
    match env.metadata (canonical_path₀ ++ [tui.index_file]) with
    | .error _ => (canonical_path₀, original_metadata)
    | .ok data => (canonical_path₀ ++ [tui.index_file], data)
  else (canonical_path₀, original_metadata)

/-- Embeds the body-source selection block of handle_get
(src/src/http/mod.rs lines 646-672): a rendered listing for a directory,
an opened file otherwise, with the full length and optional mime type. -/
def open_resource (env : FsEnv) (tui : HttpTui) (normalized_path : List Char)
    (canonical_path : FsPath) (metadata : FileMetadata)
    (req_path : List Char) :
    Except IoErrorKind (ResponseDataType × Nat × Option (List Char)) :=
  if metadata.is_dir then
    let s := env.render_directory normalized_path canonical_path tui.uploading
    .ok (.stringData s.length, s.length, some "text/html; charset=utf-8".toList)
  else
    match env.openFileOk canonical_path with
    | .error e => .error e
    | .ok _ =>
      let len := if metadata.is_file then metadata.len else 4294967295
      .ok (.fileData canonical_path, len,
        if endsWithChars ".html".toList req_path then
          some "text/html; charset=utf-8".toList
        else none)

/-- Embeds the range-resolution and response-construction tail of
handle_get (src/src/http/mod.rs lines 674-735). -/
def build_get_response (req : HttpRequest) (response_data : ResponseDataType)
    (full_length : Nat) (mime : Option (List Char)) : HttpResult :=
  match resolveRange (req.get_header "range".toList) full_length with
  | .error _ => .Error .BadRequest (some "Could not decode Range header".toList)
  | .ok (start, range, used_range) =>
    let resp := HttpResponse.new
      (if used_range then .PartialContent else .OK) req.version
    let resp := resp.add_header "Server".toList "hypershare".toList
    let resp := resp.add_header "Accept-Ranges".toList "bytes".toList
    let resp := resp.set_content_length range
    let resp :=
      if used_range then
        let resp := resp.add_header "Content-Range".toList
          ("bytes ".toList ++ natChars start ++ ['-'] ++
            natChars (max start (start + range - 1)) ++ ['/'] ++
            natChars full_length)
        { resp with body_cursor := start }
      else resp
    let resp :=
      match mime with
      | some content_type => resp.add_header "Content-Type".toList content_type
      | none => resp
    let resp := resp.add_body response_data
    .Response resp range

/-- Embeds HttpTui::handle_get (src/src/http/mod.rs): path containment,
append-slash redirect, index-file substitution, directory listing policy,
then the body-source and range blocks above. -/
def handle_get (tui : HttpTui) (env : FsEnv) (req : HttpRequest) :
    Except IoErrorKind HttpResult :=
  match get_and_check_canon_path env tui.root_dir
      (joinPath tui.root_dir (normalize_path req.path)) with
  | .error e => .error e
  | .ok none => .ok (.Error .NotFound (some "Path disallowed.".toList))
  | .ok (some canonical_path₀) =>
    match env.metadata canonical_path₀ with
    | .error e =>
      match resolve_io_error e with
      | some http_error => .ok (.Error http_error (some "io error".toList))
      | none => .error e
    | .ok original_metadata =>
      if ¬ tui.no_append_slash ∧ 0 < (normalize_path req.path).length ∧
          original_metadata.is_dir ∧
          ¬ endsWithChars "/".toList (normalize_path req.path) then
        let resp := HttpResponse.new .MovedPermanently req.version
        let resp := resp.add_header "Location".toList
          ('/' :: normalize_path req.path ++ ['/'])
        let resp := resp.add_header "Server".toList "hypershare".toList
        .ok (.Response resp 0)
      else
        if ¬ (index_substitute env tui canonical_path₀
              original_metadata).2.is_file ∧
            ¬ (index_substitute env tui canonical_path₀
              original_metadata).2.is_dir then
          .ok (.Error .PermissionDenied
            (some "Attempted to read an irregular file.".toList))
        else if ¬ tui.dir_listings ∧
            (index_substitute env tui canonical_path₀
              original_metadata).2.is_dir then
          .ok (.Error .PermissionDenied
            (some "Unable to list this directory.".toList))
        else
          match open_resource env tui (normalize_path req.path)
              (index_substitute env tui canonical_path₀ original_metadata).1
              (index_substitute env tui canonical_path₀ original_metadata).2
              req.path with
          | .error e => .error e
          | .ok (response_data, full_length, mime) =>
            .ok (build_get_response req response_data full_length mime)

/-- Embeds get_post_boundary (src/src/http/mod.rs): extract the boundary
parameter of the Content-Type header, unquoting if quoted. -/
def get_post_boundary (req : HttpRequest) : Option (List Char) :=
  match req.get_header "content-type".toList with
  | none => none
  | some ct => goSegs (splitSub [';'] ct)
where
  goSegs : List (List Char) → Option (List Char)
    | [] => none
    | segment :: rest =>
      if isPrefixList "boundary=".toList (trimStartChars segment) then
        match findIdxChar '=' segment with
        | none => none
        | some i =>
          let inner := segment.drop i
          if isPrefixList "=\"".toList inner then some ((inner.drop 2).dropLast)
          else some (inner.drop 1)
      else goSegs rest

/-- Modelled from the spec: building the Boyer-Moore search structure fails
only for an empty pattern (the search crate is external); the structure is
identified with its byte pattern. -/
def bm_from (s : List Char) : Option (List Nat) :=
  if s = [] then none else some (charsToBytes s)

/-- Embeds HttpTui::handle_post (src/src/http/mod.rs): uploads-enabled check,
boundary extraction, destination containment, and PostBuffer construction
seeded with the body bytes already in the header buffer. -/
def handle_post (tui : HttpTui) (env : FsEnv) (req : HttpRequest)
    (conn : HttpConnection) : Except IoErrorKind (HttpResult × HttpConnection) :=
  if ¬ tui.uploading then
    .ok (.Error .MethodNotAllowed
      (some "This server does not accept POST requests.".toList), conn)
  else
    match get_post_boundary req with
    | none =>
      .ok (.Error .BadRequest
        (some "Failed to find or parse boundary".toList), conn)
    | some boundary =>
      let real_boundary := "--".toList ++ boundary
      match bm_from real_boundary with
      | none =>
        .ok (.Error .ServerError
          (some "Could not create Boyer-Moore delimeter".toList), conn)
      | some post_delimeter =>
        let normalized_path := normalize_path req.path
        let path := joinPath tui.root_dir normalized_path
        match get_and_check_canon_path env tui.root_dir path with
        | .error e => .error e
        | .ok none => .ok (.Error .NotFound (some "Path disallowed.".toList), conn)
        | .ok (some canonical_path) =>
          let pb := PostBuffer.new canonical_path post_delimeter
            ((conn.buffer.take conn.bytes_read).drop conn.body_start_location)
            tui.upload_size_limit
          .ok (.ReadRequestBody, { conn with post_buffer := some pb })

/-- Modelled from the spec: the Renderer builds an HTML error page for a
status and optional message (the rendering module is not in the sources);
only the byte length of the page matters to the connection accounting. -/
def render_error (status : HttpStatus) (msg : Option (List Char)) : List Char :=
  "<html>".toList ++ natChars status.code ++ msg.getD [] ++ "</html>".toList

/-- Embeds HttpTui::create_oneoff_response (src/src/http/mod.rs): build the
error page, set headers, write headers synchronously (recorded in the sends
list as the status code) and enter WritingResponse.  The Rust assertion that
no response is already pending is not modelled. -/
def create_oneoff_response (status : HttpStatus) (conn : HttpConnection)
    (msg : Option (List Char)) : ConnectionState × HttpConnection × List Nat :=
  let body := render_error status msg
  let resp := HttpResponse.new status .Http1_1
  let resp := resp.add_header "Server".toList "hypershare".toList
  let resp := resp.set_content_length body.length
  let resp := resp.add_header "Connection".toList
    (if conn.keep_alive then "keep-alive".toList else "close".toList)
  let resp := resp.add_header "Content-Type".toList
    "text/html; charset=utf-8".toList
  let conn := { conn with bytes_requested := conn.bytes_requested + body.length }
  let resp := resp.add_body (.stringData body.length)
  (.WritingResponse, { conn with response := some resp }, [status.code])

/-- Result of a connection-level dispatch: the next state with the updated
connection, disk and wire sends; an uncaught OS error; or fuel exhaustion of
the upload-parser loop (also used for the unreachable unwrap-panic cases). -/
inductive SvcOut where
  | ok (st : ConnectionState) (conn : HttpConnection) (d : Disk) (sends : List Nat)
  | ioerr (e : IoErrorKind) (conn : HttpConnection) (d : Disk) (sends : List Nat)
  | nofuel
deriving DecidableEq

/-- Embeds HttpTui::check_partial_post_body (src/src/http/mod.rs): the
draining parser call; errors come back as the queued composite and force
keep-alive off. -/
def check_partial_post_body (fuel : Nat) (conn : HttpConnection) (d : Disk) :
    SvcOut :=
  match conn.post_buffer with
  | none => .nofuel
  | some pb =>
    match handle_new_data_queue_error fuel pb d with
    | none => .nofuel
    | some (.ok done, pb', d') =>
      let conn := { conn with post_buffer := some pb' }
      if done then
        let r := create_oneoff_response .Created conn
          (some "File received.".toList)
        .ok r.1 r.2.1 d' r.2.2
      else .ok .ReadingPostBody conn d' []
    | some (.error e, pb', d') =>
      let conn := { conn with post_buffer := some pb', keep_alive := false }
      let r := create_oneoff_response e.get_code conn
        (some "Error while processing POST request".toList)
      .ok r.1 r.2.1 d' r.2.2

/-- Embeds HttpTui::check_partial_post_body_initial (src/src/http/mod.rs):
on HTTP/1.1 with Expect: 100-continue, one direct (non-draining) parse pass —
201 when already complete (no 100 sent), immediate error otherwise sending
no 100, else send 100 Continue and read the body; without the Expect header,
the draining variant. -/
def check_partial_post_body_initial (fuel : Nat) (req : HttpRequest)
    (conn : HttpConnection) (d : Disk) : SvcOut :=
  match conn.post_buffer with
  | none => .nofuel
  | some pb =>
    if req.version = .Http1_1 ∧
        req.get_header "expect".toList = some "100-continue".toList then
      match handle_new_data fuel pb d with
      | none => .nofuel
      | some (.ok done, pb', d') =>
        let conn := { conn with post_buffer := some pb' }
        if done then
          let r := create_oneoff_response .Created conn
            (some "File received.".toList)
          .ok r.1 r.2.1 d' r.2.2
        else
          .ok .ReadingPostBody conn d' [HttpStatus.Continue.code]
      | some (.error e, pb', d') =>
        let conn := { conn with post_buffer := some pb', keep_alive := false }
        let r := create_oneoff_response e.get_code conn
          (some "Error while processing POST request".toList)
        .ok r.1 r.2.1 d' r.2.2
    else check_partial_post_body fuel conn d

/-- Embeds HttpTui::parse_and_service_request (src/src/http/mod.rs): count
the request, decode, record method and path, apply the disabled flag, derive
keep-alive, dispatch by method, and turn the outcome into a state change. -/
def parse_and_service_request (tui : HttpTui) (env : FsEnv) (fuel : Nat)
    (conn₀ : HttpConnection) (d : Disk) : SvcOut :=
  let conn := { conn₀ with num_requests := conn₀.num_requests + 1 }
  let head := conn.buffer.take conn.body_start_location
  match decode_request head with
  | .error status =>
    let conn := { conn with keep_alive := false }
    let r := create_oneoff_response status conn
      (some "Could not decode request.".toList)
    .ok r.1 r.2.1 d r.2.2
  | .ok req =>
    let conn := { conn with
      last_requested_uri := some req.path
      last_requested_method := req.method }
    if tui.disabled then
      let conn := { conn with keep_alive := false }
      let r := create_oneoff_response .ServiceUnavailable conn
        (some "This server has been temporarily disabled.".toList)
      .ok r.1 r.2.1 d r.2.2
    else
      let conn := { conn with keep_alive :=
        (match req.get_header "connection".toList with
         | some value => decide (toLowerChars value = "keep-alive".toList)
         | none => false) }
      match req.method with
      | none =>
        let r := create_oneoff_response .NotImplemented conn
          (some "This server does not implement the requested HTTP method.".toList)
        .ok r.1 r.2.1 d r.2.2
      | some m =>
        let maybe_result : Except IoErrorKind (HttpResult × HttpConnection) :=
          match m with
          | .GET => (handle_get tui env req).map (fun r => (r, conn))
          | .HEAD => (handle_get tui env req).map (fun r => (r, conn))
          | .POST => handle_post tui env req conn
        match maybe_result with
        | .error e =>
          match resolve_io_error e with
          | some http_error =>
            let r := create_oneoff_response http_error conn
              (some "io error".toList)
            .ok r.1 r.2.1 d r.2.2
          | none => .ioerr e conn d []
        | .ok (result, conn) =>
          match result with
          | .Error http_status msg =>
            let r := create_oneoff_response http_status conn msg
            .ok r.1 r.2.1 d r.2.2
          | .ReadRequestBody => check_partial_post_body_initial fuel req conn d
          | .Response resp range =>
            let resp := resp.add_header "Connection".toList
              (if conn.keep_alive then "keep-alive".toList else "close".toList)
            let sends := [resp.status.code]
            let resp := if req.method.getD .HEAD = .HEAD then resp.clear_body
              else resp
            let conn := { conn with
              response := some resp
              bytes_requested := conn.bytes_requested + range }
            .ok .WritingResponse conn d sends

/-- Embeds HttpTui::write_partial_response (src/src/http/mod.rs): one bounded
body write; `amt` is the byte count the stream accepted.  Done when nothing
was written or everything requested has been sent. -/
def write_partial_response (conn : HttpConnection) (amt : Nat) :
    Bool × HttpConnection :=
  match conn.response with
  | some _ =>
    let conn := { conn with bytes_sent := conn.bytes_sent + amt }
    (decide (amt = 0 ∨ conn.bytes_requested ≤ conn.bytes_sent), conn)
  | none => (true, conn)

/-- Embeds HttpTui::write_partial_final_response (src/src/http/mod.rs): on
completion, reset and keep reading if keep-alive, else close. -/
def write_partial_final_response (conn : HttpConnection) (amt : Nat) :
    ConnectionState × HttpConnection :=
  let r := write_partial_response conn amt
  if r.1 then
    if r.2.keep_alive then (.ReadingRequest, r.2.reset)
    else (.Closing, r.2)
  else (.WritingResponse, r.2)

/-- Embeds HttpTui::handle_request (src/src/http/mod.rs): service the parsed
request, map an uncaught OS error to a 500 one-off, and force an initial
response write when entering WritingResponse.  The history line emission is
pure logging and is not modelled. -/
def handle_request (tui : HttpTui) (env : FsEnv) (fuel : Nat)
    (conn : HttpConnection) (d : Disk) (amt : Nat) : SvcOut :=
  match parse_and_service_request tui env fuel conn d with
  | .nofuel => .nofuel
  | .ioerr _ conn d sends =>
    let r := create_oneoff_response .ServerError conn
      (some "server error".toList)
    finishWrite r.1 r.2.1 d (sends ++ r.2.2) amt
  | .ok st conn d sends => finishWrite st conn d sends amt
where
  finishWrite (st : ConnectionState) (conn : HttpConnection) (d : Disk)
      (sends : List Nat) (amt : Nat) : SvcOut :=
    if st = .WritingResponse then
      let w := write_partial_final_response conn amt
      .ok w.1 w.2 d sends
    else .ok st conn d sends

/-- The buffer fill a successful header read performs: append the accepted
bytes (clamped to the remaining capacity) and advance bytes_read. -/
def read_fill (conn : HttpConnection) (inp : List Nat) : HttpConnection :=
  { conn with
    buffer := conn.buffer ++
      inp.take (min inp.length (BUFFER_SIZE - conn.bytes_read))
    bytes_read := conn.bytes_read +
      min inp.length (BUFFER_SIZE - conn.bytes_read) }

/-- Embeds HttpTui::read_partial_request (src/src/http/mod.rs): one bounded
read into the header buffer; `input = none` models a socket read error.
Peer close, a filled buffer without the body boundary (the 431 path), a
found boundary, or more reading. -/
def read_partial_request (tui : HttpTui) (env : FsEnv) (fuel : Nat)
    (conn : HttpConnection) (input : Option (List Nat)) (d : Disk)
    (amt : Nat) : SvcOut :=
  match input with
  | none => .ok .Closing conn d []
  | some inp =>
    if min inp.length (BUFFER_SIZE - conn.bytes_read) = 0 then
      .ok .Closing (read_fill conn inp) d []
    else if (read_fill conn inp).bytes_read = BUFFER_SIZE then
      match find_body_start ((read_fill conn inp).buffer.take
          (read_fill conn inp).bytes_read) with
      | some start =>
        handle_request tui env fuel
          { read_fill conn inp with body_start_location := start } d amt
      | none =>
        let r := create_oneoff_response .RequestHeadersTooLarge
          (read_fill conn inp)
          (some "Request headers are too long. The total size must be less than 4KB.".toList)
        .ok r.1 r.2.1 d r.2.2
    else
      match find_body_start ((read_fill conn inp).buffer.take
          (read_fill conn inp).bytes_read) with
      | some start =>
        handle_request tui env fuel
          { read_fill conn inp with body_start_location := start } d amt
      | none => .ok .ReadingRequest (read_fill conn inp) d []

/-- The next connection state recorded in a dispatch outcome. -/
def svc_state : SvcOut → ConnectionState
  | .ok st _ _ _ => st
  | .ioerr _ _ _ _ => .Closing
  | .nofuel => .Closing

/-- The connection recorded in a dispatch outcome. -/
def svc_conn : SvcOut → HttpConnection
  | .ok _ c _ _ => c
  | .ioerr _ c _ _ => c
  | .nofuel => HttpConnection.new

/-- The disk recorded in a dispatch outcome. -/
def svc_disk : SvcOut → Disk
  | .ok _ _ d _ => d
  | .ioerr _ _ d _ => d
  | .nofuel => ⟨[]⟩

/-- The wire sends recorded in a dispatch outcome. -/
def svc_sends : SvcOut → List Nat
  | .ok _ _ _ s => s
  | .ioerr _ _ _ s => s
  | .nofuel => []

/-- A disk with no files, for the connection-level fixtures. -/
def dEmpty : Disk := ⟨[]⟩

/-- A fresh connection whose header buffer already holds 4095 filler bytes:
one more byte fills the 4096-byte buffer without a body boundary. -/
def conn4095 : HttpConnection :=
  { HttpConnection.new with buffer := List.replicate 4095 65, bytes_read := 4095 }


/-! ### Invariant machinery for the upload parser buffer -/

/-- The PostBuffer cursor invariant from the spec data model. -/
def PostBuffer.inv (pb : PostBuffer) : Prop :=
  pb.parse_idx ≤ pb.fill_location ∧ pb.fill_location ≤ pb.buffer.length

instance (pb : PostBuffer) : Decidable pb.inv := by
  unfold PostBuffer.inv; infer_instance

/-- Fields of the parser every step leaves unchanged: the physical buffer
size and the delimiter. -/
def sameShape (pb' pb : PostBuffer) : Prop :=
  pb'.buffer.length = pb.buffer.length ∧
  pb'.post_delimeter_string = pb.post_delimeter_string

theorem isPrefixList_length [DecidableEq α] :
    ∀ (p l : List α), isPrefixList p l = true → p.length ≤ l.length
  | [], _, _ => Nat.zero_le _
  | a :: as, [], h => by simp [isPrefixList] at h
  | a :: as, b :: bs, h => by
    simp only [isPrefixList] at h
    split at h
    · exact Nat.succ_le_succ (isPrefixList_length as bs h)
    · exact absurd h (by simp)

theorem firstOccur_bound [DecidableEq α] :
    ∀ (pat l : List α) (i : Nat),
      firstOccur pat l = some i → i + pat.length ≤ l.length
  | pat, [], i, h => by
    simp only [firstOccur] at h
    split at h
    · cases h
      simpa using isPrefixList_length pat [] (by assumption)
    · cases h
  | pat, a :: rest, i, h => by
    simp only [firstOccur] at h
    split at h
    · cases h
      simpa using isPrefixList_length pat (a :: rest) (by assumption)
    · rcases Option.map_eq_some'.mp h with ⟨j, hj, rfl⟩
      have ih := firstOccur_bound pat rest j hj
      simp only [List.length_cons]
      omega

theorem find_next_delim_bound (pb : PostBuffer) (start idx : Nat)
    (hinv : pb.inv) (hs : start ≤ pb.fill_location)
    (h : pb.find_next_delim start = some idx) :
    start ≤ idx ∧ idx + pb.post_delimeter_string.length ≤ pb.fill_location := by
  rcases Option.map_eq_some'.mp h with ⟨j, hj, rfl⟩
  have hb := firstOccur_bound _ _ _ hj
  simp only [List.length_take, List.length_drop] at hb
  rcases hinv with ⟨_, h2⟩
  omega

theorem find_body_start_bound (buf : List Nat) (r : Nat)
    (h : find_body_start buf = some r) : 4 ≤ r ∧ r ≤ buf.length := by
  rcases Option.map_eq_some'.mp h with ⟨j, hj, rfl⟩
  have hb := firstOccur_bound _ _ _ hj
  simp only [List.length_cons, List.length_nil] at hb
  omega

theorem shuffle_shape (pb : PostBuffer) (remain : Nat) (hinv : pb.inv) :
    (pb.shuffle remain).buffer.length = pb.buffer.length := by
  rcases hinv with ⟨h1, h2⟩
  simp only [PostBuffer.shuffle, List.length_append, List.length_take,
    List.length_drop]
  omega

theorem shuffle_inv (pb : PostBuffer) (remain : Nat) (hinv : pb.inv)
    (hr : remain ≤ pb.buffer.length) : (pb.shuffle remain).inv := by
  constructor
  · simp [PostBuffer.shuffle]
  · show remain ≤ _
    rw [shuffle_shape pb remain hinv]
    exact hr

theorem write_and_shuffle_pres (pb : PostBuffer) (d : Disk) (up_to : Nat)
    (hinv : pb.inv) (hu : up_to ≤ pb.fill_location) :
    ∀ r pb' d', pb.write_and_shuffle d up_to = (r, pb', d') →
      pb'.inv ∧ sameShape pb' pb ∧ pb'.state = pb.state := by
  intro r pb' d' h
  unfold PostBuffer.write_and_shuffle at h
  split at h
  · cases h; exact ⟨hinv, ⟨rfl, rfl⟩, rfl⟩
  · split at h
    · cases h; exact ⟨hinv, ⟨rfl, rfl⟩, rfl⟩
    · rcases hpb : pb.current_file with _ | fname <;> rw [hpb] at h
      · cases h; exact ⟨hinv, ⟨rfl, rfl⟩, rfl⟩
      · cases h
        rcases hinv with ⟨h1, h2⟩
        set pb₂ : PostBuffer := { pb with
          parse_idx := pb.parse_idx +
            ((pb.buffer.drop pb.parse_idx).take (up_to - pb.parse_idx)).length
          total_written := pb.total_written +
            ((pb.buffer.drop pb.parse_idx).take (up_to - pb.parse_idx)).length }
          with hpb₂
        have hlen : ((pb.buffer.drop pb.parse_idx).take (up_to - pb.parse_idx)).length
            ≤ up_to - pb.parse_idx := by
          simp [List.length_take, List.length_drop]
        have hinv₂ : pb₂.inv := by
          constructor
          · show pb.parse_idx + _ ≤ pb.fill_location
            omega
          · exact h2
        refine ⟨shuffle_inv pb₂ _ hinv₂ ?_, ⟨?_, rfl⟩, rfl⟩
        · show pb₂.fill_location - pb₂.parse_idx ≤ pb₂.buffer.length
          have e1 : pb₂.fill_location = pb.fill_location := rfl
          have e2 : pb₂.buffer.length = pb.buffer.length := rfl
          omega
        · exact shuffle_shape pb₂ _ hinv₂

theorem write_to_file_final_pres (pb : PostBuffer) (d : Disk) (limit : Nat)
    (hinv : pb.inv) :
    ∀ r pb' d', pb.write_to_file_final d limit = (r, pb', d') →
      pb'.inv ∧ sameShape pb' pb ∧ pb'.state = pb.state := by
  intro r pb' d' h
  unfold PostBuffer.write_to_file_final at h
  split at h
  · cases h; exact ⟨hinv, ⟨rfl, rfl⟩, rfl⟩
  · split at h
    · cases h; exact ⟨hinv, ⟨rfl, rfl⟩, rfl⟩
    · rename_i hnlt
      have hu : limit ≤ pb.fill_location := by omega
      rcases hws : pb.write_and_shuffle d limit with ⟨r₂, pb₂, d₂⟩
      have hp := write_and_shuffle_pres pb d limit hinv hu r₂ pb₂ d₂ hws
      rw [hws] at h
      rcases r₂ with e | u
      · simp only at h; cases h; exact hp
      · simp only at h; cases h
        exact ⟨hp.1, hp.2.1, hp.2.2⟩

theorem send_buffer_data_pres (pb : PostBuffer) (d : Disk) (limit : Nat)
    (hinv : pb.inv) (hl : limit ≤ pb.fill_location) :
    ∀ r pb' d', pb.send_buffer_data_to_file d limit = (r, pb', d') →
      pb'.inv ∧ sameShape pb' pb ∧ pb'.state = pb.state := by
  intro r pb' d' h
  unfold PostBuffer.send_buffer_data_to_file at h
  split at h
  · cases h; exact ⟨hinv, ⟨rfl, rfl⟩, rfl⟩
  · split at h
    · cases h; exact ⟨hinv, ⟨rfl, rfl⟩, rfl⟩
    · exact write_and_shuffle_pres pb d _ hinv (by omega) r pb' d' h

theorem stepRaw_pres (pb : PostBuffer) (d : Disk) (hinv : pb.inv)
    (hdl : pb.post_delimeter_string.length + 2 ≤ pb.buffer.length) :
    (∀ r pb' d', stepRaw pb d = .ret r pb' d' →
       pb'.inv ∧ sameShape pb' pb) ∧
    (∀ pb' d', stepRaw pb d = .again pb' d' →
       pb'.inv ∧ sameShape pb' pb) := by
  have hps : pb.parse_idx ≤ pb.fill_location := hinv.1
  have hfb : pb.fill_location ≤ pb.buffer.length := hinv.2
  unfold stepRaw
  rcases hst : pb.state with _ | _ | _ | _
  all_goals simp only
  case DiscardingData =>
    rcases hfind : pb.find_next_delim pb.parse_idx with _ | idx
    all_goals simp only
    · refine ⟨fun r pb' d' h => ?_, fun pb' d' h => by cases h⟩
      cases h
      exact ⟨shuffle_inv pb _ hinv (by omega), ⟨shuffle_shape pb _ hinv, rfl⟩⟩
    · have hb := find_next_delim_bound pb _ _ hinv hps hfind
      split
      · refine ⟨fun r pb' d' h => ?_, fun pb' d' h => by cases h⟩
        cases h
        exact ⟨shuffle_inv pb _ hinv (by omega), ⟨shuffle_shape pb _ hinv, rfl⟩⟩
      · split
        · refine ⟨fun r pb' d' h => ?_, fun pb' d' h => by cases h⟩
          cases h
          exact ⟨hinv, ⟨rfl, rfl⟩⟩
        · refine ⟨fun r pb' d' h => (nomatch h), fun pb' d' h => ?_⟩
          cases h
          exact ⟨shuffle_inv pb _ hinv (by omega), ⟨shuffle_shape pb _ hinv, rfl⟩⟩
  case AwaitingFirstBody =>
    rcases hfind : pb.find_next_delim pb.parse_idx with _ | idx
    all_goals simp only
    · refine ⟨fun r pb' d' h => ?_, fun pb' d' h => by cases h⟩
      cases h
      exact ⟨hinv, ⟨rfl, rfl⟩⟩
    · have hb := find_next_delim_bound pb _ _ hinv hps hfind
      split
      · refine ⟨fun r pb' d' h => ?_, fun pb' d' h => by cases h⟩
        cases h
        exact ⟨hinv, ⟨rfl, rfl⟩⟩
      · split
        · refine ⟨fun r pb' d' h => ?_, fun pb' d' h => by cases h⟩
          cases h
          exact ⟨hinv, ⟨rfl, rfl⟩⟩
        · refine ⟨fun r pb' d' h => (nomatch h), fun pb' d' h => ?_⟩
          cases h
          rename_i hnlt _
          refine ⟨⟨?_, hfb⟩, ⟨rfl, rfl⟩⟩
          show idx + pb.post_delimeter_string.length + 2 ≤ pb.fill_location
          omega
  case AwaitingBody =>
    rcases hfind : pb.find_next_delim pb.parse_idx with _ | idx
    all_goals simp only
    · rcases hsend : pb.send_buffer_data_to_file d pb.fill_location with ⟨r₂, pb₂, d₂⟩
      have hp := send_buffer_data_pres pb d _ hinv (le_refl _) r₂ pb₂ d₂ hsend
      rcases r₂ with e | u
      all_goals simp only
      · refine ⟨fun r pb' d' h => ?_, fun pb' d' h => by cases h⟩
        cases h
        exact ⟨hp.1, hp.2.1⟩
      · refine ⟨fun r pb' d' h => ?_, fun pb' d' h => by cases h⟩
        cases h
        exact ⟨hp.1, hp.2.1⟩
    · have hb := find_next_delim_bound pb _ _ hinv hps hfind
      split
      · refine ⟨fun r pb' d' h => ?_, fun pb' d' h => by cases h⟩
        cases h
        exact ⟨hinv, ⟨rfl, rfl⟩⟩
      · rcases hwf : pb.write_to_file_final d (idx - 2) with ⟨r₂, pb₂, d₂⟩
        have hp := write_to_file_final_pres pb d _ hinv r₂ pb₂ d₂ hwf
        rcases r₂ with e | u
        all_goals simp only
        · refine ⟨fun r pb' d' h => ?_, fun pb' d' h => by cases h⟩
          cases h
          exact ⟨hp.1, hp.2.1⟩
        · refine ⟨fun r pb' d' h => (nomatch h), fun pb' d' h => ?_⟩
          cases h
          exact ⟨hp.1, hp.2.1⟩
  case AwaitingMeta =>
    rcases hfind : find_body_start ((pb.buffer.drop pb.parse_idx).take
        (pb.fill_location - pb.parse_idx)) with _ | i
    all_goals simp only
    · refine ⟨fun r pb' d' h => ?_, fun pb' d' h => by cases h⟩
      cases h
      exact ⟨hinv, ⟨rfl, rfl⟩⟩
    · have hb := find_body_start_bound _ _ hfind
      simp only [List.length_take, List.length_drop] at hb
      split
      · refine ⟨fun r pb' d' h => ?_, fun pb' d' h => by cases h⟩
        cases h
        exact ⟨hinv, ⟨rfl, rfl⟩⟩
      · split
        · refine ⟨fun r pb' d' h => ?_, fun pb' d' h => by cases h⟩
          cases h
          exact ⟨hinv, ⟨rfl, rfl⟩⟩
        · split
          · refine ⟨fun r pb' d' h => ?_, fun pb' d' h => by cases h⟩
            cases h
            exact ⟨hinv, ⟨rfl, rfl⟩⟩
          · have hb2 : i ≤ pb.fill_location - pb.parse_idx :=
              le_trans hb.2 inf_le_left
            split <;> split
            all_goals
              first
              | · refine ⟨fun r pb' d' h => ?_, fun pb' d' h => by cases h⟩
                  cases h
                  exact ⟨hinv, ⟨rfl, rfl⟩⟩
              | · refine ⟨fun r pb' d' h => (nomatch h), fun pb' d' h => ?_⟩
                  cases h
                  refine ⟨⟨?_, hfb⟩, ⟨rfl, rfl⟩⟩
                  show i + pb.parse_idx ≤ pb.fill_location
                  omega

theorem rawFuel_pres : ∀ (fuel : Nat) (pb : PostBuffer) (d : Disk),
    pb.inv → pb.post_delimeter_string.length + 2 ≤ pb.buffer.length →
    ∀ r pb' d', rawFuel fuel pb d = some (r, pb', d') →
      pb'.inv ∧ sameShape pb' pb
  | 0, pb, d, _, _, r, pb', d', h => by cases h
  | fuel + 1, pb, d, hinv, hdl, r, pb', d', h => by
    simp only [rawFuel] at h
    cases hstep : stepRaw pb d with
    | ret r₂ pb₂ d₂ =>
      rw [hstep] at h
      cases h
      exact (stepRaw_pres pb d hinv hdl).1 _ _ _ hstep
    | again pb₂ d₂ =>
      rw [hstep] at h
      have hp := (stepRaw_pres pb d hinv hdl).2 pb₂ d₂ hstep
      have ih := rawFuel_pres fuel pb₂ d₂ hp.1
        (by rw [hp.2.1, hp.2.2]; exact hdl) r pb' d' h
      exact ⟨ih.1, ⟨ih.2.1.trans hp.2.1, ih.2.2.trans hp.2.2⟩⟩

theorem handle_new_data_pres (fuel : Nat) (pb : PostBuffer) (d : Disk)
    (hinv : pb.inv)
    (hdl : pb.post_delimeter_string.length + 2 ≤ pb.buffer.length) :
    ∀ r pb' d', handle_new_data fuel pb d = some (r, pb', d') →
      pb'.inv ∧ sameShape pb' pb := by
  intro r pb' d' h
  unfold handle_new_data at h
  split at h
  · cases h
  · rename_i b pb₂ d₂ hraw
    cases h
    exact rawFuel_pres fuel pb d hinv hdl _ _ _ hraw
  · rename_i e pb₂ d₂ hraw
    have hp := rawFuel_pres fuel pb d hinv hdl _ _ _ hraw
    split at h
    · cases h
      exact hp
    · split at h
      · cases h
        exact ⟨hp.1, hp.2⟩
      · cases h
        exact ⟨hp.1, hp.2⟩

theorem new_inv (dir : FsPath) (delim slice : List Nat) (lim : Nat)
    (hs : slice.length ≤ POST_BUFFER_SIZE) :
    (PostBuffer.new dir delim slice lim).inv ∧
    (PostBuffer.new dir delim slice lim).buffer.length = POST_BUFFER_SIZE := by
  have hlen : (PostBuffer.new dir delim slice lim).buffer.length
      = POST_BUFFER_SIZE := by
    simp only [PostBuffer.new, List.length_take, List.length_append,
      List.length_replicate]
    omega
  refine ⟨⟨?_, ?_⟩, hlen⟩
  · exact Nat.zero_le _
  · show slice.length ≤ _
    rw [hlen]; exact hs

theorem read_into_buffer_inv (pb : PostBuffer) (input : List Nat)
    (hinv : pb.inv) :
    (pb.read_into_buffer input).2.inv ∧
    (pb.read_into_buffer input).2.buffer.length = pb.buffer.length := by
  rcases hinv with ⟨h1, h2⟩
  have hlen : (pb.read_into_buffer input).2.buffer.length = pb.buffer.length := by
    simp only [PostBuffer.read_into_buffer, List.length_append,
      List.length_take, List.length_drop]
    omega
  refine ⟨⟨?_, ?_⟩, hlen⟩
  · show pb.parse_idx ≤ pb.fill_location + _
    omega
  · show pb.fill_location + _ ≤ _
    rw [hlen]
    omega

theorem removeFile_some_lookup (d : Disk) (s : FsPath) (d' : Disk)
    (h : d.removeFile s = some d') : d'.lookup s = none := by
  unfold Disk.removeFile at h
  split at h
  · cases h
    unfold Disk.lookup
    have : Disk.files ⟨d.files.filter (fun e => ¬ e.1 = s)⟩
        = d.files.filter (fun e => ¬ e.1 = s) := rfl
    rw [this]
    rw [Option.map_eq_none']
    rw [List.find?_eq_none]
    intro x hx
    have := (List.mem_filter.mp hx).2
    simpa using this
  · cases h

theorem removeFile_none_lookup (d : Disk) (s : FsPath)
    (h : d.removeFile s = none) : d.lookup s = none := by
  unfold Disk.removeFile at h
  split at h
  · cases h
  · rename_i hns
    exact Option.not_isSome_iff_eq_none.mp (by simpa using hns)

/-! ### Claim theorems -/

/-- Claim C8: every PostBuffer operation — construction, read_into_buffer,
shuffle, write_and_shuffle, and every parse step of the
handle_new_data_raw loop (hence handle_new_data itself) — preserves the
invariant parse_idx ≤ fill_location ≤ buffer capacity; construction fixes
the capacity at POST_BUFFER_SIZE = 32 MiB and every step preserves the
capacity.  The step conjuncts assume the delimiter plus its two lookahead
bytes fit in the buffer, which holds for every delimiter the server builds
(delimiters come from a header line shorter than 4096 bytes). -/
theorem postbuffer_cursor_invariant :
    (∀ dir delim slice lim, slice.length ≤ POST_BUFFER_SIZE →
        (PostBuffer.new dir delim slice lim).inv ∧
        (PostBuffer.new dir delim slice lim).buffer.length = POST_BUFFER_SIZE) ∧
    (∀ (pb : PostBuffer) (input : List Nat), pb.inv →
        (pb.read_into_buffer input).2.inv ∧
        (pb.read_into_buffer input).2.buffer.length = pb.buffer.length) ∧
    (∀ (pb : PostBuffer) (remain : Nat), pb.inv → remain ≤ pb.buffer.length →
        (pb.shuffle remain).inv ∧
        (pb.shuffle remain).buffer.length = pb.buffer.length) ∧
    (∀ (pb : PostBuffer) (d : Disk) (up_to : Nat) r pb' d',
        pb.inv → up_to ≤ pb.fill_location →
        pb.write_and_shuffle d up_to = (r, pb', d') →
        pb'.inv ∧ pb'.buffer.length = pb.buffer.length) ∧
    (∀ (pb : PostBuffer) (d : Disk), pb.inv →
        pb.post_delimeter_string.length + 2 ≤ pb.buffer.length →
        (∀ r pb' d', stepRaw pb d = .ret r pb' d' →
            pb'.inv ∧ pb'.buffer.length = pb.buffer.length) ∧
        (∀ pb' d', stepRaw pb d = .again pb' d' →
            pb'.inv ∧ pb'.buffer.length = pb.buffer.length)) ∧
    (∀ (fuel : Nat) (pb : PostBuffer) (d : Disk) r pb' d', pb.inv →
        pb.post_delimeter_string.length + 2 ≤ pb.buffer.length →
        handle_new_data fuel pb d = some (r, pb', d') → pb'.inv) := by
  refine ⟨?_, ?_, ?_, ?_, ?_, ?_⟩
  · intro dir delim slice lim hs
    exact new_inv dir delim slice lim hs
  · intro pb input hinv
    exact read_into_buffer_inv pb input hinv
  · intro pb remain hinv hr
    exact ⟨shuffle_inv pb remain hinv hr, shuffle_shape pb remain hinv⟩
  · intro pb d up_to r pb' d' hinv hu h
    have := write_and_shuffle_pres pb d up_to hinv hu r pb' d' h
    exact ⟨this.1, this.2.1.1⟩
  · intro pb d hinv hdl
    have := stepRaw_pres pb d hinv hdl
    exact ⟨fun r pb' d' h => ⟨(this.1 r pb' d' h).1, (this.1 r pb' d' h).2.1⟩,
      fun pb' d' h => ⟨(this.2 pb' d' h).1, (this.2 pb' d' h).2.1⟩⟩
  · intro fuel pb d r pb' d' hinv hdl h
    exact (handle_new_data_pres fuel pb d hinv hdl r pb' d' h).1

/-- Fixture state for the invariant witness: a small, valid parser state. -/
def pbW : PostBuffer where
  fill_location := 3
  buffer := [45, 45, 66, 0, 0, 0]
  post_delimeter_string := [45, 45, 66]
  current_filename := none
  current_file := none
  state := .AwaitingFirstBody
  dir := ["up".toList]
  parse_idx := 1
  queued_error := .no_error
  new_files := []
  total_written := 0
  size_limit := 0

theorem postbuffer_cursor_invariant_witness :
    (pbW.shuffle 2).inv ∧ (pbW.read_into_buffer [7]).2.inv :=
  ⟨(postbuffer_cursor_invariant.2.2.1 pbW 2 (by decide) (by decide)).1,
   (postbuffer_cursor_invariant.2.1 pbW [7] (by decide)).1⟩

/-- Claim C1: a flush whose pending bytes would push the cumulative written
counter beyond a configured (positive) size limit fails with 413 before any
byte reaches the disk (parser state and disk unchanged); the
handle_new_data error path then deletes the current file and forgets the
handle; and the draining wrapper turns the queued composite error into the
one-off response whose status is the composite error code — which is 413
when the 413 is the first queued error. -/
theorem upload_size_limit_enforced_before_write :
    (∀ (pb : PostBuffer) (d : Disk) (up_to : Nat),
        0 < pb.size_limit → pb.parse_idx < up_to →
        pb.size_limit < pb.total_written + (up_to - pb.parse_idx) →
        pb.write_and_shuffle d up_to =
          (.error (PostBufferError.new .PayloadTooLarge
            "Upload size limit exceeded".toList), pb, d)) ∧
    (∀ (fuel : Nat) (pb : PostBuffer) (d : Disk) e pb₁ d₁ s,
        rawFuel fuel pb d = some (.error e, pb₁, d₁) →
        pb₁.current_filename = some s →
        ∃ e' pb' d', handle_new_data fuel pb d = some (.error e', pb', d') ∧
          d'.lookup s = none ∧ pb'.current_filename = none ∧
          pb'.current_file = none) ∧
    (∀ (fuel : Nat) (conn : HttpConnection) (d : Disk) pb e pb' d₂,
        conn.post_buffer = some pb →
        handle_new_data_queue_error fuel pb d = some (.error e, pb', d₂) →
        ∃ conn₂, check_partial_post_body fuel conn d =
            .ok .WritingResponse conn₂ d₂ [e.get_code.code] ∧
          conn₂.response.map HttpResponse.status = some e.get_code) ∧
    (∀ msg, (PostBufferError.no_error.add_error
        (PostBufferError.new .PayloadTooLarge msg)).get_code
          = .PayloadTooLarge) := by
  refine ⟨?_, ?_, ?_, ?_⟩
  · intro pb d up_to h1 h2 h3
    unfold PostBuffer.write_and_shuffle
    rw [if_neg (by omega), if_pos ⟨h1, h3⟩]
  · intro fuel pb d e pb₁ d₁ s hraw hcf
    unfold handle_new_data
    rw [hraw]
    simp only [hcf]
    rcases hrm : d₁.removeFile s with _ | d₃ <;> simp only [hrm]
    · exact ⟨_, _, _, rfl, removeFile_none_lookup d₁ s hrm, rfl, rfl⟩
    · exact ⟨_, _, _, rfl, removeFile_some_lookup d₁ s d₃ hrm, rfl, rfl⟩
  · intro fuel conn d pb e pb' d₂ hpb hqe
    unfold check_partial_post_body
    simp only [hpb, hqe]
    exact ⟨_, rfl, rfl⟩
  · intro msg
    rfl

/-- Fixture state for the C1 witness: size limit 1, two pending bytes. -/
def pb413 : PostBuffer where
  fill_location := 2
  buffer := [65, 66]
  post_delimeter_string := [45, 45, 66]
  current_filename := some ["up".toList, "f".toList]
  current_file := some ["up".toList, "f".toList]
  state := .AwaitingBody
  dir := ["up".toList]
  parse_idx := 0
  queued_error := .no_error
  new_files := []
  total_written := 0
  size_limit := 1

theorem upload_size_limit_enforced_before_write_witness :
    pb413.write_and_shuffle ⟨[]⟩ 2 =
      (.error (PostBufferError.new .PayloadTooLarge
        "Upload size limit exceeded".toList), pb413, ⟨[]⟩) :=
  upload_size_limit_enforced_before_write.1 pb413 ⟨[]⟩ 2
    (by decide) (by decide) (by decide)

/-- Claim C10: when the multipart header block of a part yields a valid
filename, the name is pushed onto new_files (the list the history line
reports via get_new_files) before the exclusive create is attempted, so the
name is recorded even when creation fails with the name-collision server
error. -/
theorem filename_recorded_even_if_create_fails
    (pb : PostBuffer) (d : Disk) (i : Nat) (info f₀ f : List Char)
    (hst : pb.state = .AwaitingMeta)
    (hfind : find_body_start ((pb.buffer.drop pb.parse_idx).take
      (pb.fill_location - pb.parse_idx)) = some i)
    (hinfo : content_disposition_info (bytesToChars
      ((pb.buffer.drop pb.parse_idx).take
        (i + pb.parse_idx - pb.parse_idx))) = info)
    (hinfo0 : ¬ info = [])
    (hf0 : filename_from_info info = f₀)
    (hf00 : ¬ f₀ = [])
    (hslash : f₀.contains '/' = false)
    (hf : f = if f₀.head? = some '"' then (f₀.drop 1).dropLast else f₀) :
    (∀ e pb' d', stepRaw pb d = .ret (.error e) pb' d' →
        f ∈ pb'.get_new_files) ∧
    (∀ pb' d', stepRaw pb d = .again pb' d' → f ∈ pb'.get_new_files) ∧
    (d.createNew (pb.dir ++ [f]) = none →
        ∃ pb', stepRaw pb d = .ret (.error (PostBufferError.server_error
            "Could not open file for writing".toList)) pb' d ∧
          f ∈ pb'.get_new_files) := by
  have hstep : stepRaw pb d =
      match d.createNew (pb.dir ++ [f]) with
      | none =>
        .ret (.error (PostBufferError.server_error
          "Could not open file for writing".toList))
          { pb with new_files := pb.new_files ++ [f] } d
      | some d' =>
        .again { pb with
          new_files := pb.new_files ++ [f]
          current_file := some (pb.dir ++ [f])
          current_filename := some (pb.dir ++ [f])
          state := .AwaitingBody
          parse_idx := i + pb.parse_idx } d' := by
    unfold stepRaw
    rw [hst]
    simp only
    rw [hfind]
    simp only [hinfo, hf0]
    rw [if_neg hinfo0, if_neg hf00, if_neg (by intro hc; rw [hslash] at hc; exact Bool.noConfusion hc), ← hf]
  have hmem : f ∈ pb.new_files ++ [f] := by simp
  refine ⟨?_, ?_, ?_⟩
  · intro e pb' d' h
    rw [hstep] at h
    rcases hcn : d.createNew (pb.dir ++ [f]) with _ | d₃ <;> rw [hcn] at h
    · cases h; exact hmem
    · cases h
  · intro pb' d' h
    rw [hstep] at h
    rcases hcn : d.createNew (pb.dir ++ [f]) with _ | d₃ <;> rw [hcn] at h
    · cases h
    · cases h; exact hmem
  · intro hcn
    rw [hstep, hcn]
    exact ⟨_, rfl, hmem⟩

/-- Fixture for the C10 witness: an AwaitingMeta state whose header block
names a.txt while a.txt already exists in the destination directory. -/
def pbMeta : PostBuffer where
  fill_location := 58
  buffer := charsToBytes
    "Content-Disposition: form-data; filename=\"a.txt\"\r\n\r\nBODY--".toList
  post_delimeter_string := [45, 45, 66]
  current_filename := none
  current_file := none
  state := .AwaitingMeta
  dir := ["up".toList]
  parse_idx := 0
  queued_error := .no_error
  new_files := []
  total_written := 0
  size_limit := 0

/-- Disk on which a.txt already exists. -/
def dMeta : Disk := ⟨[(["up".toList, "a.txt".toList], [])]⟩

theorem filename_recorded_even_if_create_fails_witness :
    dMeta.createNew (pbMeta.dir ++ ["a.txt".toList]) = none ∧
    ∃ pb', stepRaw pbMeta dMeta = .ret (.error (PostBufferError.server_error
        "Could not open file for writing".toList)) pb' dMeta ∧
      "a.txt".toList ∈ pb'.get_new_files :=
  ⟨by decide,
   (filename_recorded_even_if_create_fails pbMeta dMeta 52
      " form-data; filename=\"a.txt\"".toList "\"a.txt\"".toList
      "a.txt".toList (by decide) (by decide) (by decide) (by decide)
      (by decide) (by decide) (by decide) (by decide)).2.2 (by decide)⟩

/-- Fixture for the C3 counterexample: an AwaitingBody state in which the
two bytes immediately preceding the boundary match are X Y (88 89), not
CRLF. -/
def pbC3 : PostBuffer where
  fill_location := 8
  buffer := charsToBytes "AXY--B..".toList
  post_delimeter_string := charsToBytes "--B".toList
  current_filename := some ["up".toList, "f".toList]
  current_file := some ["up".toList, "f".toList]
  state := .AwaitingBody
  dir := ["up".toList]
  parse_idx := 0
  queued_error := .no_error
  new_files := []
  total_written := 0
  size_limit := 0

/-- Disk for the C3 counterexample: the open destination file, still empty. -/
def dC3 : Disk := ⟨[(["up".toList, "f".toList], [])]⟩

/-- PostBuffer state the C3 counterexample steps to. -/
def pbC3After : PostBuffer where
  fill_location := 7
  buffer := [88, 89, 45, 45, 66, 46, 46, 46]
  post_delimeter_string := charsToBytes "--B".toList
  current_filename := some ["up".toList, "f".toList]
  current_file := none
  state := .AwaitingFirstBody
  dir := ["up".toList]
  parse_idx := 0
  queued_error := .no_error
  new_files := []
  total_written := 1
  size_limit := 0

/-- Claim C3 counterexample: the boundary match in pbC3 is at offset 3, the
two bytes before it are 88 89 — not CRLF — yet the parser does not return
the 400 error the claim requires: the step succeeds, flushes the single
byte before them, closes the file and moves to AwaitingFirstBody. -/
theorem awaiting_body_no_crlf_check_counterexample :
    pbC3.find_next_delim pbC3.parse_idx = some 3 ∧
    (pbC3.buffer.drop 1).take 2 = [88, 89] ∧
    ¬ (pbC3.buffer.drop 1).take 2 = [13, 10] ∧
    stepRaw pbC3 dC3 = .again pbC3After
      ⟨[(["up".toList, "f".toList], [65])]⟩ := by decide

/-- Claim C3 (amended): in AwaitingBody with a boundary match at offset
idx, the parser returns 400 exactly when idx < 2 — fewer than two bytes
precede the match; it never inspects those two bytes, so for any buffer
contents whatsoever it flushes up to idx − 2 to the open file, closes it,
and returns to AwaitingFirstBody. -/
theorem awaiting_body_boundary_flush
    (pb : PostBuffer) (d : Disk) (idx : Nat) (fname : FsPath)
    (hst : pb.state = .AwaitingBody)
    (hfind : pb.find_next_delim pb.parse_idx = some idx)
    (hfile : pb.current_file = some fname)
    (hfill : idx - 2 ≤ pb.fill_location)
    (hlim : ¬ (0 < pb.size_limit ∧
      pb.size_limit < pb.total_written + (idx - 2 - pb.parse_idx))) :
    (idx < 2 → stepRaw pb d = .ret (.error (PostBufferError.new .BadRequest
        "No CRLF before delimeter. Malformed request.".toList)) pb d) ∧
    (2 ≤ idx → ∃ pb' d', stepRaw pb d = .again pb' d' ∧
        pb'.state = .AwaitingFirstBody ∧ pb'.current_file = none ∧
        d' = (if idx - 2 ≤ pb.parse_idx then d
              else d.appendFile fname ((pb.buffer.drop pb.parse_idx).take
                (idx - 2 - pb.parse_idx)))) := by
  have hnone : ¬ pb.current_file.isNone = true := by
    rw [hfile]; simp
  constructor
  · intro h2
    unfold stepRaw
    rw [hst]
    simp only
    rw [hfind]
    simp only
    rw [if_pos h2]
  · intro h2
    unfold stepRaw
    rw [hst]
    simp only
    rw [hfind]
    simp only
    rw [if_neg (by omega)]
    unfold PostBuffer.write_to_file_final
    rw [if_neg hnone, if_neg (by omega)]
    rcases le_or_lt (idx - 2) pb.parse_idx with hle | hlt
    · have hws : pb.write_and_shuffle d (idx - 2) = (.ok (), pb, d) := by
        unfold PostBuffer.write_and_shuffle
        rw [if_pos hle]
      rw [hws]
      simp only
      exact ⟨_, _, rfl, rfl, rfl, by rw [if_pos hle]⟩
    · have hws : pb.write_and_shuffle d (idx - 2) =
          (.ok (), PostBuffer.shuffle { pb with
              parse_idx := pb.parse_idx +
                ((pb.buffer.drop pb.parse_idx).take
                  (idx - 2 - pb.parse_idx)).length
              total_written := pb.total_written +
                ((pb.buffer.drop pb.parse_idx).take
                  (idx - 2 - pb.parse_idx)).length }
            (pb.fill_location - (pb.parse_idx +
              ((pb.buffer.drop pb.parse_idx).take
                (idx - 2 - pb.parse_idx)).length)),
            d.appendFile fname ((pb.buffer.drop pb.parse_idx).take
              (idx - 2 - pb.parse_idx))) := by
        unfold PostBuffer.write_and_shuffle
        rw [if_neg (by omega), if_neg hlim, hfile]
      rw [hws]
      simp only
      exact ⟨_, _, rfl, rfl, rfl, by rw [if_neg (by omega)]⟩

/-- Witness for the amended C3 theorem: both conjuncts at concrete states —
the idx < 2 case returning 400 and the flush case at pbC3. -/
def pbC3Early : PostBuffer :=
  { pbC3 with buffer := charsToBytes "A--B....".toList }

theorem awaiting_body_boundary_flush_witness :
    (stepRaw pbC3Early dC3 = .ret (.error (PostBufferError.new .BadRequest
        "No CRLF before delimeter. Malformed request.".toList)) pbC3Early dC3) ∧
    (∃ pb' d', stepRaw pbC3 dC3 = .again pb' d' ∧
        pb'.state = .AwaitingFirstBody ∧ pb'.current_file = none ∧
        d' = (if 3 - 2 ≤ pbC3.parse_idx then dC3
              else dC3.appendFile ["up".toList, "f".toList]
                ((pbC3.buffer.drop pbC3.parse_idx).take
                  (3 - 2 - pbC3.parse_idx)))) :=
  ⟨(awaiting_body_boundary_flush pbC3Early dC3 1 ["up".toList, "f".toList]
      (by decide) (by decide) (by decide) (by decide) (by decide)).1
    (by decide),
   (awaiting_body_boundary_flush pbC3 dC3 3 ["up".toList, "f".toList]
      (by decide) (by decide) (by decide) (by decide) (by decide)).2
    (by decide)⟩

theorem gacp_escape (env : FsEnv) (root : FsPath) (p : List Char)
    (cp : FsPath) (hcanon : env.canonicalize p = .ok cp)
    (hesc : isPrefixList root cp = false) :
    get_and_check_canon_path env root p = .ok none := by
  unfold get_and_check_canon_path
  rw [hcanon]
  simp [hesc]

/-- Claim C2: for GET and HEAD (handle_get serves both) and for POST, the
request path is stripped of a leading separator, joined to the configured
root and canonicalized; whenever the canonical result is not a descendant
of the root the handler outcome is the 404 NotFound error — never 403 —
regardless of the target.  For POST the uploads-enabled and boundary checks
precede path resolution, so they appear as hypotheses. -/
theorem path_escape_yields_404
    (tui : HttpTui) (env : FsEnv) (req : HttpRequest)
    (conn : HttpConnection) (cp : FsPath) (b : List Char)
    (hcanon : env.canonicalize
      (joinPath tui.root_dir (normalize_path req.path)) = .ok cp)
    (hesc : isPrefixList tui.root_dir cp = false) :
    handle_get tui env req = .ok (.Error .NotFound
      (some "Path disallowed.".toList)) ∧
    (tui.uploading = true → get_post_boundary req = some b →
      handle_post tui env req conn = .ok (.Error .NotFound
        (some "Path disallowed.".toList), conn)) ∧
    HttpStatus.NotFound.code = 404 ∧
    ¬ HttpStatus.NotFound = HttpStatus.PermissionDenied := by
  refine ⟨?_, ?_, rfl, by decide⟩
  · simp only [handle_get, gacp_escape env tui.root_dir _ cp hcanon hesc]
  · intro hup hb
    have hbm : bm_from ("--".toList ++ b)
        = some (charsToBytes ("--".toList ++ b)) := by
      unfold bm_from
      rw [if_neg (by simp)]
    simp only [handle_post, hup, hb, hbm,
      gacp_escape env tui.root_dir _ cp hcanon hesc]
    simp

/-- Fixtures for the C2 witness: a root, an environment whose
canonicalization escapes the root, and a GET/POST-capable request. -/
def tuiW : HttpTui where
  root_dir := ["root".toList]
  dir_listings := true
  disabled := false
  uploading := true
  upload_size_limit := 0
  index_file := "index.html".toList
  no_index_file := false
  no_append_slash := false

def envEscape : FsEnv where
  canonicalize := fun _ => .ok ["etc".toList, "passwd".toList]
  metadata := fun _ => .ok ⟨false, true, 10⟩
  openFileOk := fun _ => .ok ()
  render_directory := fun _ _ _ => []

def reqEscape : HttpRequest where
  method := some .GET
  path := "/../etc/passwd".toList
  version := .Http1_1
  headers := [("content-type".toList,
    "multipart/form-data; boundary=X".toList)]

theorem path_escape_yields_404_witness :
    handle_get tuiW envEscape reqEscape = .ok (.Error .NotFound
      (some "Path disallowed.".toList)) ∧
    handle_post tuiW envEscape reqEscape HttpConnection.new =
      .ok (.Error .NotFound (some "Path disallowed.".toList),
        HttpConnection.new) :=
  ⟨(path_escape_yields_404 tuiW envEscape reqEscape HttpConnection.new
      ["etc".toList, "passwd".toList] "X".toList (by decide) (by decide)).1,
   (path_escape_yields_404 tuiW envEscape reqEscape HttpConnection.new
      ["etc".toList, "passwd".toList] "X".toList (by decide) (by decide)).2.1
     (by decide) (by decide)⟩

theorem write_and_shuffle_state (pb : PostBuffer) (d : Disk) (up_to : Nat) :
    ∀ r pb' d', pb.write_and_shuffle d up_to = (r, pb', d') →
      pb'.state = pb.state := by
  intro r pb' d' h
  unfold PostBuffer.write_and_shuffle at h
  split at h
  · cases h; rfl
  · split at h
    · cases h; rfl
    · rcases hpb : pb.current_file with _ | fname <;> rw [hpb] at h
      · cases h; rfl
      · cases h; rfl

theorem write_to_file_final_state (pb : PostBuffer) (d : Disk) (limit : Nat) :
    ∀ r pb' d', pb.write_to_file_final d limit = (r, pb', d') →
      pb'.state = pb.state := by
  intro r pb' d' h
  unfold PostBuffer.write_to_file_final at h
  split at h
  · cases h; rfl
  · split at h
    · cases h; rfl
    · rcases hws : pb.write_and_shuffle d limit with ⟨r₂, pb₂, d₂⟩
      have := write_and_shuffle_state pb d limit r₂ pb₂ d₂ hws
      rw [hws] at h
      rcases r₂ with e | u <;> simp only at h <;> cases h
      · exact this
      · exact this

theorem send_buffer_data_state (pb : PostBuffer) (d : Disk) (limit : Nat) :
    ∀ r pb' d', pb.send_buffer_data_to_file d limit = (r, pb', d') →
      pb'.state = pb.state := by
  intro r pb' d' h
  unfold PostBuffer.send_buffer_data_to_file at h
  split at h
  · cases h; rfl
  · split at h
    · cases h; rfl
    · exact write_and_shuffle_state pb d _ r pb' d' h

theorem stepRaw_no_discard (pb : PostBuffer) (d : Disk)
    (hnd : ¬ pb.state = .DiscardingData) :
    (∀ r pb' d', stepRaw pb d = .ret r pb' d' →
      ¬ pb'.state = .DiscardingData) ∧
    (∀ pb' d', stepRaw pb d = .again pb' d' →
      ¬ pb'.state = .DiscardingData) := by
  unfold stepRaw
  rcases hst : pb.state with _ | _ | _ | _
  case DiscardingData => exact absurd hst hnd
  all_goals simp only
  case AwaitingFirstBody =>
    rcases pb.find_next_delim pb.parse_idx with _ | idx
    all_goals simp only
    · exact ⟨fun r pb' d' h => by cases h; simp [hst],
        fun pb' d' h => by cases h⟩
    · split
      · exact ⟨fun r pb' d' h => by cases h; simp [hst],
          fun pb' d' h => by cases h⟩
      · split
        · exact ⟨fun r pb' d' h => by cases h; simp [hst],
            fun pb' d' h => by cases h⟩
        · exact ⟨fun r pb' d' h => (nomatch h),
            fun pb' d' h => by cases h; simp⟩
  case AwaitingBody =>
    rcases pb.find_next_delim pb.parse_idx with _ | idx
    all_goals simp only
    · rcases hsend : pb.send_buffer_data_to_file d pb.fill_location
        with ⟨r₂, pb₂, d₂⟩
      have hn2 : ¬ pb₂.state = PostRequestState.DiscardingData := by
        rw [send_buffer_data_state pb d pb.fill_location r₂ pb₂ d₂ hsend, hst]
        simp
      rcases r₂ with e | u
      all_goals simp only
      · exact ⟨fun r pb' d' h => by cases h; exact hn2,
          fun pb' d' h => by cases h⟩
      · exact ⟨fun r pb' d' h => by cases h; exact hn2,
          fun pb' d' h => by cases h⟩
    · split
      · exact ⟨fun r pb' d' h => by cases h; simp [hst],
          fun pb' d' h => by cases h⟩
      · rcases hwf : pb.write_to_file_final d (idx - 2) with ⟨r₂, pb₂, d₂⟩
        have hn2 : ¬ pb₂.state = PostRequestState.DiscardingData := by
          rw [write_to_file_final_state pb d (idx - 2) r₂ pb₂ d₂ hwf, hst]
          simp
        rcases r₂ with e | u
        all_goals simp only
        · exact ⟨fun r pb' d' h => by cases h; exact hn2,
            fun pb' d' h => by cases h⟩
        · exact ⟨fun r pb' d' h => (nomatch h),
            fun pb' d' h => by cases h; simp⟩
  case AwaitingMeta =>
    rcases find_body_start ((pb.buffer.drop pb.parse_idx).take
        (pb.fill_location - pb.parse_idx)) with _ | i
    all_goals simp only
    · exact ⟨fun r pb' d' h => by cases h; simp [hst],
        fun pb' d' h => by cases h⟩
    · split
      · exact ⟨fun r pb' d' h => by cases h; simp [hst],
          fun pb' d' h => by cases h⟩
      · split
        · exact ⟨fun r pb' d' h => by cases h; simp [hst],
            fun pb' d' h => by cases h⟩
        · split
          · exact ⟨fun r pb' d' h => by cases h; simp [hst],
              fun pb' d' h => by cases h⟩
          · split <;> split
            all_goals
              first
              | · exact ⟨fun r pb' d' h => by cases h; simp [hst],
                    fun pb' d' h => by cases h⟩
              | · exact ⟨fun r pb' d' h => (nomatch h),
                    fun pb' d' h => by cases h; simp⟩

theorem rawFuel_no_discard : ∀ (fuel : Nat) (pb : PostBuffer) (d : Disk)
    r pb' d', ¬ pb.state = .DiscardingData →
    rawFuel fuel pb d = some (r, pb', d') → ¬ pb'.state = .DiscardingData
  | 0, _, _, _, _, _, _, h => by cases h
  | fuel + 1, pb, d, r, pb', d', hnd, h => by
    simp only [rawFuel] at h
    cases hstep : stepRaw pb d with
    | ret r₂ pb₂ d₂ =>
      rw [hstep] at h
      cases h
      exact (stepRaw_no_discard pb d hnd).1 _ _ _ hstep
    | again pb₂ d₂ =>
      rw [hstep] at h
      exact rawFuel_no_discard fuel pb₂ d₂ r pb' d'
        ((stepRaw_no_discard pb d hnd).2 _ _ hstep) h

theorem handle_new_data_no_discard (fuel : Nat) (pb : PostBuffer) (d : Disk)
    (hnd : ¬ pb.state = .DiscardingData) :
    ∀ r pb' d', handle_new_data fuel pb d = some (r, pb', d') →
      ¬ pb'.state = .DiscardingData := by
  intro r pb' d' h
  unfold handle_new_data at h
  split at h
  · cases h
  · rename_i b pb₂ d₂ hraw
    cases h
    exact rawFuel_no_discard fuel pb d _ _ _ hnd hraw
  · rename_i e pb₂ d₂ hraw
    have hnd₂ := rawFuel_no_discard fuel pb d _ _ _ hnd hraw
    split at h
    · cases h
      exact hnd₂
    · split at h
      · cases h
        exact hnd₂
      · cases h
        exact hnd₂

theorem queue_error_drains : ∀ (fuel : Nat) (pb : PostBuffer) (d : Disk),
    (∀ e pb' d',
        handle_new_data_queue_error fuel pb d = some (.error e, pb', d') →
        pb'.state = .DiscardingData ∧ e = pb'.queued_error) ∧
    (∀ done pb' d',
        handle_new_data_queue_error fuel pb d = some (.ok done, pb', d') →
        ¬ (done = true ∧ pb'.state = .DiscardingData))
  | 0, pb, d =>
    ⟨fun e pb' d' h => (nomatch h), fun done pb' d' h => (nomatch h)⟩
  | fuel + 1, pb, d => by
    constructor
    · intro e pb' d' h
      simp only [handle_new_data_queue_error] at h
      split at h
      · cases h
      · split at h
        · rename_i hcond
          cases h
          exact ⟨hcond.2, rfl⟩
        · cases h
      · exact (queue_error_drains fuel _ _).1 e pb' d' h
    · intro done pb' d' h
      simp only [handle_new_data_queue_error] at h
      split at h
      · cases h
      · split at h
        · cases h
        · rename_i hcond
          cases h
          exact hcond
      · exact (queue_error_drains fuel _ _).2 done pb' d' h

/-- Claim C4: on HTTP/1.1 with Expect: 100-continue the initial POST check
runs one direct handle_new_data pass — completion answers 201 without a 100
on the wire, an error is answered immediately with its own code and without
the parser being left in DiscardingData, and otherwise a 100 Continue is
the only send before entering ReadingPostBody; every other POST read uses
the draining wrapper, whose first error switches the parser to
DiscardingData with the error queued, and which surfaces the queued
composite exactly in a state where draining has finished (done inside
DiscardingData). -/
theorem expect_100_continue_initial_pass
    (fuel : Nat) (req : HttpRequest) (conn : HttpConnection)
    (d : Disk) (pb : PostBuffer)
    (hpb : conn.post_buffer = some pb)
    (hexp : req.version = .Http1_1 ∧
      req.get_header "expect".toList = some "100-continue".toList) :
    (∀ pb' d', handle_new_data fuel pb d = some (.ok true, pb', d') →
        ∃ conn₂, check_partial_post_body_initial fuel req conn d =
            .ok .WritingResponse conn₂ d' [HttpStatus.Created.code] ∧
          conn₂.response.map HttpResponse.status = some .Created) ∧
    (∀ pb' d', handle_new_data fuel pb d = some (.ok false, pb', d') →
        check_partial_post_body_initial fuel req conn d =
          .ok .ReadingPostBody { conn with post_buffer := some pb' } d'
            [HttpStatus.Continue.code]) ∧
    (∀ e pb' d', handle_new_data fuel pb d = some (.error e, pb', d') →
        (∃ conn₂, check_partial_post_body_initial fuel req conn d =
            .ok .WritingResponse conn₂ d' [e.get_code.code] ∧
          conn₂.response.map HttpResponse.status = some e.get_code ∧
          conn₂.keep_alive = false) ∧
        (¬ pb.state = .DiscardingData → ¬ pb'.state = .DiscardingData)) ∧
    (∀ (req₂ : HttpRequest) (conn₂ : HttpConnection),
        ¬ (req₂.version = .Http1_1 ∧
          req₂.get_header "expect".toList = some "100-continue".toList) →
        check_partial_post_body_initial fuel req₂ conn₂ d =
          check_partial_post_body fuel conn₂ d) ∧
    (∀ f e pb' d',
        handle_new_data_queue_error f pb d = some (.error e, pb', d') →
        pb'.state = .DiscardingData ∧ e = pb'.queued_error) ∧
    (∀ f done pb' d',
        handle_new_data_queue_error f pb d = some (.ok done, pb', d') →
        ¬ (done = true ∧ pb'.state = .DiscardingData)) ∧
    (∀ n s pb₁ d₁,
        handle_new_data (n + 1) pb d = some (.error s, pb₁, d₁) →
        handle_new_data_queue_error (n + 1) pb d =
          handle_new_data_queue_error n
            { pb₁ with
              state := .DiscardingData
              queued_error := pb₁.queued_error.add_error s } d₁) := by
  refine ⟨?_, ?_, ?_, ?_, ?_, ?_, ?_⟩
  · intro pb' d' hh
    unfold check_partial_post_body_initial
    simp only [hpb, if_pos hexp, hh]
    exact ⟨_, rfl, rfl⟩
  · intro pb' d' hh
    unfold check_partial_post_body_initial
    simp only [hpb, if_pos hexp, hh]
    rfl
  · intro e pb' d' hh
    constructor
    · unfold check_partial_post_body_initial
      simp only [hpb, if_pos hexp, hh]
      exact ⟨_, rfl, rfl, rfl⟩
    · intro hnd
      exact handle_new_data_no_discard fuel pb d hnd _ _ _ hh
  · intro req₂ conn₂ hne
    unfold check_partial_post_body_initial
    rcases hc : conn₂.post_buffer with _ | pb₂ <;> simp only [hc]
    · unfold check_partial_post_body
      rw [hc]
    · rw [if_neg hne]
  · intro f e pb' d' h
    exact (queue_error_drains f pb d).1 e pb' d' h
  · intro f done pb' d' h
    exact (queue_error_drains f pb d).2 done pb' d' h
  · intro n s pb₁ d₁ hh
    simp only [handle_new_data_queue_error, hh]

/-- Fixtures for the C4 witness: an Expect: 100-continue request on
HTTP/1.1 over a parser that still needs data, so the pass sends exactly a
100 Continue and enters ReadingPostBody. -/
def pbIdle : PostBuffer where
  fill_location := 3
  buffer := [0, 0, 0]
  post_delimeter_string := [45, 45, 66]
  current_filename := none
  current_file := none
  state := .AwaitingFirstBody
  dir := ["up".toList]
  parse_idx := 0
  queued_error := .no_error
  new_files := []
  total_written := 0
  size_limit := 0

def reqExpect : HttpRequest where
  method := some .POST
  path := "/up".toList
  version := .Http1_1
  headers := [("expect".toList, "100-continue".toList)]

def connExpect : HttpConnection :=
  { HttpConnection.new with post_buffer := some pbIdle }

theorem expect_100_continue_initial_pass_witness :
    check_partial_post_body_initial 1 reqExpect connExpect ⟨[]⟩ =
      .ok .ReadingPostBody
        { connExpect with post_buffer := some pbIdle } ⟨[]⟩
        [HttpStatus.Continue.code] :=
  (expect_100_continue_initial_pass 1 reqExpect connExpect ⟨[]⟩ pbIdle
    (by decide) (by decide)).2.1 pbIdle ⟨[]⟩ (by decide)

theorem isPrefixList_append_self [DecidableEq α] :
    ∀ (p t : List α), isPrefixList p (p ++ t) = true
  | [], _ => rfl
  | a :: as, t => by
    simp only [List.cons_append, isPrefixList, if_pos rfl]
    exact isPrefixList_append_self as t

theorem findIdxChar_append_of_notMem (c : Char) :
    ∀ (l r : List Char), c ∉ l →
      findIdxChar c (l ++ r) = (findIdxChar c r).map (· + l.length)
  | [], r, _ => by
    simp only [List.nil_append, List.length_nil]
    rcases findIdxChar c r with _ | i <;> rfl
  | a :: as, r, h => by
    have ha : ¬ a = c := fun hac => h (List.mem_cons.mpr (Or.inl hac.symm))
    have ih := findIdxChar_append_of_notMem c as r
      (fun hm => h (List.mem_cons_of_mem a hm))
    show (if a = c then some 0 else (findIdxChar c (as ++ r)).map (· + 1))
        = (findIdxChar c r).map (· + (a :: as).length)
    rw [if_neg ha, ih]
    rcases findIdxChar c r with _ | i
    · rfl
    · simp only [Option.map_some', List.length_cons]
      congr 1

theorem parseUsize_not_nil (s : List Char) (n : Nat)
    (h : parseUsize s = some n) : ¬ s = [] := by
  intro he
  rw [he] at h
  cases h

theorem parseUsizeDigits_chars (t : List Char) (n : Nat)
    (h : parseUsizeDigits t = some n) :
    ¬ t = [] ∧ ∀ c ∈ t, c.isDigit = true := by
  unfold parseUsizeDigits at h
  split at h
  · rename_i hcond
    exact ⟨hcond.1, fun c hc => List.all_eq_true.mp hcond.2 c hc⟩
  · cases h

theorem parseUsize_chars (s : List Char) (n : Nat)
    (h : parseUsize s = some n) : ∀ c ∈ s, c = '+' ∨ c.isDigit = true := by
  unfold parseUsize at h
  split at h
  · rename_i rest
    intro c hc
    rcases List.mem_cons.mp hc with hh | hh
    · exact Or.inl hh
    · exact Or.inr ((parseUsizeDigits_chars rest n h).2 c hh)
  · intro c hc
    exact Or.inr ((parseUsizeDigits_chars _ n h).2 c hc)

theorem parseUsize_no_dash (s : List Char) (n : Nat)
    (h : parseUsize s = some n) : '-' ∉ s := by
  intro hm
  rcases parseUsize_chars s n h '-' hm with hc | hc
  · cases hc
  · cases hc

theorem bytes_eq_list : "bytes=".toList = ['b', 'y', 't', 'e', 's', '='] := rfl

theorem decode_both_ends (ds de : List Char) (m n : Nat)
    (hds : parseUsize ds = some m) (hde : parseUsize de = some n) :
    decode_content_range ("bytes=".toList ++ ds ++ ['-'] ++ de) =
      (if n = 0 ∨ m > n then none
       else some ⟨m, some (1 + n - m)⟩) := by
  have hpre : isPrefixList "bytes=".toList
      ("bytes=".toList ++ ds ++ ['-'] ++ de) = true := by
    have := isPrefixList_append_self "bytes=".toList (ds ++ ['-'] ++ de)
    simpa [List.append_assoc] using this
  have heq : findIdxChar '=' ("bytes=".toList ++ ds ++ ['-'] ++ de)
      = some 5 := rfl
  have hdash : findIdxChar '-' ("bytes=".toList ++ ds ++ ['-'] ++ de)
      = some (6 + ds.length) := by
    have hnm : '-' ∉ "bytes=".toList ++ ds := by
      intro hm
      rcases List.mem_append.mp hm with hh | hh
      · rw [bytes_eq_list] at hh
        simp at hh
      · exact parseUsize_no_dash ds m hds hh
    have h1 : "bytes=".toList ++ ds ++ ['-'] ++ de
        = ("bytes=".toList ++ ds) ++ ('-' :: de) := by
      simp [List.append_assoc]
    rw [h1, findIdxChar_append_of_notMem '-' _ _ hnm]
    simp only [findIdxChar, if_pos rfl, Option.map_some', List.length_append,
      bytes_eq_list]
    simp
  unfold decode_content_range
  rw [if_neg (by rw [hpre]; simp), heq, hdash]
  simp only
  have hstart : (("bytes=".toList ++ ds ++ ['-'] ++ de).drop (5 + 1)).take
      (6 + ds.length - (5 + 1)) = ds := by
    have h1 : "bytes=".toList ++ ds ++ ['-'] ++ de
        = "bytes=".toList ++ (ds ++ ('-' :: de)) := by
      simp [List.append_assoc]
    rw [h1]
    have h2 : ("bytes=".toList ++ (ds ++ ('-' :: de))).drop (5 + 1)
        = ds ++ ('-' :: de) := by
      simp [bytes_eq_list]
    rw [h2]
    have h3 : 6 + ds.length - (5 + 1) = ds.length := by omega
    rw [h3]
    exact List.take_left ds ('-' :: de)
  have hend : ("bytes=".toList ++ ds ++ ['-'] ++ de).drop (6 + ds.length + 1)
      = de := by
    have h1 : "bytes=".toList ++ ds ++ ['-'] ++ de
        = ("bytes=".toList ++ ds ++ ['-']) ++ de := by
      simp [List.append_assoc]
    have h2 : ("bytes=".toList ++ ds ++ ['-']).length = 6 + ds.length + 1 := by
      simp [bytes_eq_list]
      omega
    rw [h1, ← h2]
    exact List.drop_left _ de
  rw [hstart, hend]
  have hds0 : 0 < ds.length :=
    List.length_pos.mpr (parseUsize_not_nil ds m hds)
  have hde0 : 0 < de.length :=
    List.length_pos.mpr (parseUsize_not_nil de n hde)
  rw [if_pos hds0, if_pos hde0, hds, hde]

theorem decode_open_end (ds : List Char) (m : Nat)
    (hds : parseUsize ds = some m) :
    decode_content_range ("bytes=".toList ++ ds ++ ['-']) =
      some ⟨m, none⟩ := by
  have hpre : isPrefixList "bytes=".toList
      ("bytes=".toList ++ ds ++ ['-']) = true := by
    have := isPrefixList_append_self "bytes=".toList (ds ++ ['-'])
    simpa [List.append_assoc] using this
  have heq : findIdxChar '=' ("bytes=".toList ++ ds ++ ['-'])
      = some 5 := rfl
  have hdash : findIdxChar '-' ("bytes=".toList ++ ds ++ ['-'])
      = some (6 + ds.length) := by
    have hnm : '-' ∉ "bytes=".toList ++ ds := by
      intro hm
      rcases List.mem_append.mp hm with hh | hh
      · rw [bytes_eq_list] at hh
        simp at hh
      · exact parseUsize_no_dash ds m hds hh
    have h1 : "bytes=".toList ++ ds ++ ['-']
        = ("bytes=".toList ++ ds) ++ ('-' :: []) := by
      simp [List.append_assoc]
    rw [h1, findIdxChar_append_of_notMem '-' _ _ hnm]
    simp only [findIdxChar, if_pos rfl, Option.map_some', List.length_append,
      bytes_eq_list]
    simp
  unfold decode_content_range
  rw [if_neg (by rw [hpre]; simp), heq, hdash]
  simp only
  have hstart : (("bytes=".toList ++ ds ++ ['-']).drop (5 + 1)).take
      (6 + ds.length - (5 + 1)) = ds := by
    have h1 : "bytes=".toList ++ ds ++ ['-']
        = "bytes=".toList ++ (ds ++ ['-']) := by
      simp [List.append_assoc]
    rw [h1]
    have h2 : ("bytes=".toList ++ (ds ++ ['-'])).drop (5 + 1)
        = ds ++ ['-'] := by
      simp [bytes_eq_list]
    rw [h2]
    have h3 : 6 + ds.length - (5 + 1) = ds.length := by omega
    rw [h3]
    exact List.take_left ds ['-']
  have hend : ("bytes=".toList ++ ds ++ ['-']).drop (6 + ds.length + 1)
      = [] := by
    apply List.drop_eq_nil_of_le
    simp [bytes_eq_list]
    omega
  rw [hstart, hend]
  have hds0 : 0 < ds.length :=
    List.length_pos.mpr (parseUsize_not_nil ds m hds)
  rw [if_pos hds0, hds]
  simp

theorem decode_open_start (de : List Char) (n : Nat)
    (hde : parseUsize de = some n) :
    decode_content_range ("bytes=-".toList ++ de) =
      (if n = 0 then none else some ⟨0, some (1 + n)⟩) := by
  have hsplit : "bytes=-".toList ++ de = "bytes=".toList ++ ('-' :: de) := rfl
  have hpre : isPrefixList "bytes=".toList
      ("bytes=".toList ++ ('-' :: de)) = true :=
    isPrefixList_append_self _ _
  have heq : findIdxChar '=' ("bytes=".toList ++ ('-' :: de)) = some 5 := rfl
  have hdash : findIdxChar '-' ("bytes=".toList ++ ('-' :: de)) = some 6 := by
    have hnm : '-' ∉ "bytes=".toList := by rw [bytes_eq_list]; simp
    rw [findIdxChar_append_of_notMem '-' _ _ hnm]
    simp only [findIdxChar, if_pos rfl, Option.map_some', bytes_eq_list]
    rfl
  rw [hsplit]
  unfold decode_content_range
  rw [if_neg (by rw [hpre]; simp), heq, hdash]
  simp only
  have hstart : (("bytes=".toList ++ ('-' :: de)).drop (5 + 1)).take
      (6 - (5 + 1)) = [] := by
    simp
  have hend : ("bytes=".toList ++ ('-' :: de)).drop (6 + 1) = de := by
    have h2 : "bytes=".toList ++ ('-' :: de)
        = ("bytes=".toList ++ ['-']) ++ de := by simp
    have h3 : ("bytes=".toList ++ ['-']).length = 6 + 1 := by
      rw [bytes_eq_list]; rfl
    rw [h2, ← h3]
    exact List.drop_left _ de
  rw [hstart, hend]
  simp only [List.length_nil]
  rw [if_neg (by omega)]
  have hde0 : 0 < de.length :=
    List.length_pos.mpr (parseUsize_not_nil de n hde)
  rw [if_pos hde0, hde]
  simp only
  by_cases hn : n = 0
  · subst hn
    simp
  · rw [if_neg (by omega), if_neg hn, Nat.sub_zero]

theorem resolveRange_clamped (hdr : List Char) (full s l : Nat) (u : Bool)
    (h : resolveRange (some hdr) full = .ok (s, l, u)) :
    s ≤ full ∧ s + l ≤ full ∧ u = true := by
  rcases hdec : decode_content_range hdr with _ | ⟨st, len⟩ <;>
    simp only [resolveRange, hdec] at h
  · cases h
  · rcases len with _ | ln
    · replace h : Except.ok (min st full, full - min st full, true)
          = Except.ok (s, l, u) := h
      cases h
      refine ⟨?_, ?_, rfl⟩ <;> omega
    · replace h : Except.ok (min st full, min ln (full - min st full), true)
          = Except.ok (s, l, u) := h
      cases h
      refine ⟨?_, ?_, rfl⟩ <;> omega

theorem resolveRange_no_header (full : Nat) :
    resolveRange none full = .ok (0, full, false) := rfl

theorem resolveRange_bad_header (hdr : List Char) (full : Nat)
    (h : decode_content_range hdr = none) :
    resolveRange (some hdr) full = .error () := by
  simp only [resolveRange, h]

theorem build_get_response_props (req : HttpRequest)
    (data : ResponseDataType) (full : Nat) (mime : Option (List Char))
    (resp : HttpResponse) (range : Nat)
    (h : build_get_response req data full mime = .Response resp range) :
    ("Accept-Ranges".toList, "bytes".toList) ∈ resp.headers ∧
    (∀ hv, req.get_header "range".toList = some hv →
        resp.status = .PartialContent ∧
        ∃ v, ("Content-Range".toList, v) ∈ resp.headers) ∧
    (req.get_header "range".toList = none → resp.status = .OK) := by
  unfold build_get_response at h
  rcases hrr : resolveRange (req.get_header "range".toList) full
      with _ | ⟨start, rng, used⟩ <;> rw [hrr] at h <;> simp only at h
  · cases h
  · cases used
    · rcases mime with _ | ct <;> simp only at h <;> cases h
      · refine ⟨?_, ?_, ?_⟩
        · simp [HttpResponse.new, HttpResponse.add_header,
            HttpResponse.set_content_length, HttpResponse.add_body]
        · intro hv hhv
          rw [hhv] at hrr
          exact absurd (resolveRange_clamped hv full start range false hrr).2.2
            (by simp)
        · intro _
          rfl
      · refine ⟨?_, ?_, ?_⟩
        · simp [HttpResponse.new, HttpResponse.add_header,
            HttpResponse.set_content_length, HttpResponse.add_body]
        · intro hv hhv
          rw [hhv] at hrr
          exact absurd (resolveRange_clamped hv full start range false hrr).2.2
            (by simp)
        · intro _
          rfl
    · rcases mime with _ | ct <;> simp only at h <;> cases h
      · refine ⟨?_, ?_, ?_⟩
        · simp [HttpResponse.new, HttpResponse.add_header,
            HttpResponse.set_content_length, HttpResponse.add_body]
        · intro hv hhv
          refine ⟨rfl, ?_⟩
          exact ⟨"bytes ".toList ++ natChars start ++ ['-'] ++
              natChars (max start (start + range - 1)) ++ ['/'] ++
              natChars full,
            by simp [HttpResponse.new, HttpResponse.add_header,
              HttpResponse.set_content_length, HttpResponse.add_body]⟩
        · intro hhv
          rw [hhv] at hrr
          rw [resolveRange_no_header full] at hrr
          cases hrr
      · refine ⟨?_, ?_, ?_⟩
        · simp [HttpResponse.new, HttpResponse.add_header,
            HttpResponse.set_content_length, HttpResponse.add_body]
        · intro hv hhv
          refine ⟨rfl, ?_⟩
          exact ⟨"bytes ".toList ++ natChars start ++ ['-'] ++
              natChars (max start (start + range - 1)) ++ ['/'] ++
              natChars full,
            by simp [HttpResponse.new, HttpResponse.add_header,
              HttpResponse.set_content_length, HttpResponse.add_body]⟩
        · intro hhv
          rw [hhv] at hrr
          rw [resolveRange_no_header full] at hrr
          cases hrr

theorem handle_get_response_cases (tui : HttpTui) (env : FsEnv)
    (req : HttpRequest) (resp : HttpResponse) (range : Nat)
    (h : handle_get tui env req = .ok (.Response resp range)) :
    resp.status = .MovedPermanently ∨
    ∃ data full mime,
      build_get_response req data full mime = .Response resp range := by
  unfold handle_get at h
  split at h
  · cases h
  · cases h
  · split at h
    · split at h <;> cases h
    · split at h
      · cases h
        exact Or.inl rfl
      · split at h
        · cases h
        · split at h
          · cases h
          · split at h
            · cases h
            · exact Or.inr ⟨_, _, _, Except.ok.inj h⟩

theorem handle_get_response_range_status (tui : HttpTui) (env : FsEnv)
    (req : HttpRequest) (resp : HttpResponse) (range : Nat)
    (h : handle_get tui env req = .ok (.Response resp range))
    (hnm : ¬ resp.status = .MovedPermanently) :
    ("Accept-Ranges".toList, "bytes".toList) ∈ resp.headers ∧
    (∀ hv, req.get_header "range".toList = some hv →
        resp.status = .PartialContent ∧
        ∃ v, ("Content-Range".toList, v) ∈ resp.headers) ∧
    (req.get_header "range".toList = none → resp.status = .OK) := by
  rcases handle_get_response_cases tui env req resp range h
      with h301 | ⟨data, full, mime, hb⟩
  · exact absurd h301 hnm
  · exact build_get_response_props req data full mime resp range hb

/-- Claim C5: Range header semantics — an omitted start defaults to 0 and
an omitted end is open-ended; end = 0 or start > end fails decoding, which
the response block answers with 400; the resolved start and length are
clamped to the resource size; every successful (non-redirect) GET/HEAD
response carries Accept-Ranges: bytes and is 206 with a Content-Range
header exactly when a Range header was used, else 200. -/
theorem range_header_semantics :
    (∀ ds de m n, parseUsize ds = some m → parseUsize de = some n →
        decode_content_range ("bytes=".toList ++ ds ++ ['-'] ++ de) =
          (if n = 0 ∨ m > n then none else some ⟨m, some (1 + n - m)⟩)) ∧
    (∀ ds m, parseUsize ds = some m →
        decode_content_range ("bytes=".toList ++ ds ++ ['-']) =
          some ⟨m, none⟩) ∧
    (∀ de n, parseUsize de = some n →
        decode_content_range ("bytes=-".toList ++ de) =
          (if n = 0 then none else some ⟨0, some (1 + n)⟩)) ∧
    (∀ hdr full s l u, resolveRange (some hdr) full = .ok (s, l, u) →
        s ≤ full ∧ s + l ≤ full ∧ u = true) ∧
    (∀ full, resolveRange none full = .ok (0, full, false)) ∧
    (∀ (req : HttpRequest) data full mime hv,
        req.get_header "range".toList = some hv →
        decode_content_range hv = none →
        build_get_response req data full mime =
          .Error .BadRequest (some "Could not decode Range header".toList)) ∧
    (∀ tui env req resp range,
        handle_get tui env req = .ok (.Response resp range) →
        ¬ resp.status = .MovedPermanently →
        ("Accept-Ranges".toList, "bytes".toList) ∈ resp.headers ∧
        (∀ hv, req.get_header "range".toList = some hv →
            resp.status = .PartialContent ∧
            ∃ v, ("Content-Range".toList, v) ∈ resp.headers) ∧
        (req.get_header "range".toList = none → resp.status = .OK)) := by
  refine ⟨decode_both_ends, decode_open_end, decode_open_start,
    resolveRange_clamped, resolveRange_no_header, ?_,
    handle_get_response_range_status⟩
  intro req data full mime hv hhv hdec
  unfold build_get_response
  rw [hhv, resolveRange_bad_header hv full hdec]

theorem range_header_semantics_witness :
    decode_content_range
        ("bytes=".toList ++ "2".toList ++ ['-'] ++ "5".toList) =
      (if 5 = 0 ∨ 2 > 5 then none else some ⟨2, some (1 + 5 - 2)⟩) ∧
    decode_content_range ("bytes=".toList ++ "7".toList ++ ['-']) =
      some ⟨7, none⟩ :=
  ⟨range_header_semantics.1 "2".toList "5".toList 2 5 (by decide) (by decide),
   range_header_semantics.2.1 "7".toList 7 (by decide)⟩

/-- Status of a GET outcome, for concrete response statements. -/
def result_status : Except IoErrorKind HttpResult → HttpStatus
  | .ok (.Response resp _) => resp.status
  | .ok (.Error st _) => st
  | _ => .ServerError

/-- Byte count a GET outcome will stream, for concrete statements. -/
def result_range : Except IoErrorKind HttpResult → Nat
  | .ok (.Response _ range) => range
  | _ => 0

/-- Body read position of a GET outcome, for concrete statements. -/
def result_cursor : Except IoErrorKind HttpResult → Nat
  | .ok (.Response resp _) => resp.body_cursor
  | _ => 0

/-- Fixtures for the C6 counterexample: a 10-byte file inside the root and
a GET for it with Range: bytes=0-. -/
def envFile : FsEnv where
  canonicalize := fun _ => .ok ["root".toList, "f.txt".toList]
  metadata := fun _ => .ok ⟨false, true, 10⟩
  openFileOk := fun _ => .ok ()
  render_directory := fun _ _ _ => []

def reqRange0 : HttpRequest where
  method := some .GET
  path := "/f.txt".toList
  version := .Http1_1
  headers := [("range".toList, "bytes=0-".toList)]

/-- Claim C6 counterexample: a GET with Range: bytes=0- on a 10-byte file
does return the whole resource (10 bytes from offset 0), but with status
206, not the 200 the claim requires. -/
theorem range_zero_open_counterexample :
    result_status (handle_get tuiW envFile reqRange0) = .PartialContent ∧
    ¬ result_status (handle_get tuiW envFile reqRange0) = .OK ∧
    result_range (handle_get tuiW envFile reqRange0) = 10 ∧
    result_cursor (handle_get tuiW envFile reqRange0) = 0 := by decide

/-- Claim C6 (amended): for a GET of a regular file with
Range: bytes=0-, the server returns the whole resource — the streamed
window starts at offset 0 and spans the full length — but the status is
206 Partial Content with a Content-Range header, not 200. -/
theorem range_zero_open_whole_resource_206
    (tui : HttpTui) (env : FsEnv) (req : HttpRequest) (cp : FsPath) (n : Nat)
    (hcanon : env.canonicalize
      (joinPath tui.root_dir (normalize_path req.path)) = .ok cp)
    (hpre : isPrefixList tui.root_dir cp = true)
    (hmeta : env.metadata cp = .ok ⟨false, true, n⟩)
    (hopen : env.openFileOk cp = .ok ())
    (hrange : req.get_header "range".toList = some "bytes=0-".toList) :
    ∃ resp, handle_get tui env req = .ok (.Response resp n) ∧
      resp.status = .PartialContent ∧
      resp.body_cursor = 0 ∧
      resp.content_length = some n ∧
      (∃ v, ("Content-Range".toList, v) ∈ resp.headers) := by
  have hg : get_and_check_canon_path env tui.root_dir
      (joinPath tui.root_dir (normalize_path req.path)) = .ok (some cp) := by
    unfold get_and_check_canon_path
    simp only [hcanon]
    rw [if_pos hpre]
  have hidx : index_substitute env tui cp ⟨false, true, n⟩
      = (cp, ⟨false, true, n⟩) := by
    unfold index_substitute
    rw [if_neg (by simp)]
  have hores : open_resource env tui (normalize_path req.path) cp
      ⟨false, true, n⟩ req.path = .ok (.fileData cp, n,
        if endsWithChars ".html".toList req.path then
          some "text/html; charset=utf-8".toList
        else none) := by
    unfold open_resource
    rw [if_neg (by simp)]
    simp only [hopen]
    simp
  have hdec0 : decode_content_range "bytes=0-".toList
      = some ⟨0, none⟩ := by decide
  have hrr : resolveRange (req.get_header "range".toList) n
      = .ok (0, n, true) := by
    rw [hrange]
    simp only [resolveRange, hdec0]
    simp
  have hbuild : build_get_response req (.fileData cp) n
      (if endsWithChars ".html".toList req.path then
        some "text/html; charset=utf-8".toList
      else none) = .Response
        ((match (if endsWithChars ".html".toList req.path then
              some "text/html; charset=utf-8".toList
            else none) with
          | some ct => ({ ((((HttpResponse.new .PartialContent
              req.version).add_header "Server".toList
                "hypershare".toList).add_header "Accept-Ranges".toList
                "bytes".toList).set_content_length n).add_header
                "Content-Range".toList
                ("bytes ".toList ++ natChars 0 ++ ['-'] ++
                  natChars (max 0 (0 + n - 1)) ++ ['/'] ++ natChars n)
              with body_cursor := 0 }).add_header
                "Content-Type".toList ct
          | none => { ((((HttpResponse.new .PartialContent
              req.version).add_header "Server".toList
                "hypershare".toList).add_header "Accept-Ranges".toList
                "bytes".toList).set_content_length n).add_header
                "Content-Range".toList
                ("bytes ".toList ++ natChars 0 ++ ['-'] ++
                  natChars (max 0 (0 + n - 1)) ++ ['/'] ++ natChars n)
              with body_cursor := 0 }).add_body (.fileData cp)) n := by
    unfold build_get_response
    rw [hrr]
    rfl
  have hres : handle_get tui env req = .ok (build_get_response req
      (.fileData cp) n
      (if endsWithChars ".html".toList req.path then
        some "text/html; charset=utf-8".toList
      else none)) := by
    unfold handle_get
    simp only [hg, hmeta]
    rw [if_neg (by simp), hidx]
    simp only
    rw [if_neg (by simp), if_neg (by simp), hores]
  rw [hres, hbuild]
  rcases hml : endsWithChars ".html".toList req.path with _ | _ <;>
    simp only [hml] <;>
    refine ⟨_, rfl, rfl, rfl, rfl, ?_⟩ <;>
    exact ⟨"bytes ".toList ++ natChars 0 ++ ['-'] ++
        natChars (max 0 (0 + n - 1)) ++ ['/'] ++ natChars n,
      by simp [HttpResponse.new, HttpResponse.add_header,
        HttpResponse.set_content_length, HttpResponse.add_body]⟩

theorem range_zero_open_whole_resource_206_witness :
    ∃ resp, handle_get tuiW envFile reqRange0 =
        .ok (.Response resp 10) ∧
      resp.status = .PartialContent ∧
      resp.body_cursor = 0 ∧
      resp.content_length = some 10 ∧
      (∃ v, ("Content-Range".toList, v) ∈ resp.headers) :=
  range_zero_open_whole_resource_206 tuiW envFile reqRange0
    ["root".toList, "f.txt".toList] 10 (by decide) (by decide) (by decide)
    (by decide) (by decide)

/-! ### The header-overflow (431) path and the request counter -/

/-- Appending one copy of an element to its replicate list extends the run. -/
theorem replicate_snoc (a : Nat) : ∀ n : Nat,
    List.replicate n a ++ [a] = List.replicate (n + 1) a := by
  intro n
  induction n with
  | zero => rfl
  | succ k ih =>
    rw [List.replicate_succ, List.cons_append, ih]
    rfl

/-- No CRLFCRLF separator occurs inside a run of the filler byte 65. -/
theorem firstOccur_sep_replicate (n : Nat) :
    firstOccur [13, 10, 13, 10] (List.replicate n 65) = none := by
  induction n with
  | zero => rfl
  | succ k ih =>
    rw [List.replicate_succ]
    show (firstOccur [13, 10, 13, 10] (List.replicate k 65)).map (· + 1) = none
    rw [ih]
    rfl

/-- One more filler byte turns the 4095-byte fixture buffer into a full
4096-byte run. -/
theorem conn4095_fill_buffer :
    (read_fill conn4095 [65]).buffer = List.replicate 4096 65 :=
  replicate_snoc 65 4095

/-- The one-byte read exactly fills the fixture header buffer. -/
theorem conn4095_fill_bytes :
    (read_fill conn4095 [65]).bytes_read = BUFFER_SIZE := by decide

/-- The filled fixture buffer holds no header/body boundary. -/
theorem conn4095_no_boundary :
    find_body_start ((read_fill conn4095 [65]).buffer.take
      ((read_fill conn4095 [65]).bytes_read)) = none := by
  rw [conn4095_fill_buffer, conn4095_fill_bytes, List.take_replicate]
  rw [(by decide : min BUFFER_SIZE 4096 = 4096)]
  unfold find_body_start
  rw [firstOccur_sep_replicate]
  rfl

/-- A nonzero read that fills the header buffer without the body boundary
appearing produces the 431 one-off response on the filled connection. -/
theorem read_partial_request_full_no_boundary (tui : HttpTui) (env : FsEnv)
    (fuel : Nat) (conn : HttpConnection) (inp : List Nat) (d : Disk)
    (amt : Nat)
    (hr0 : ¬ min inp.length (BUFFER_SIZE - conn.bytes_read) = 0)
    (hfull : (read_fill conn inp).bytes_read = BUFFER_SIZE)
    (hnb : find_body_start ((read_fill conn inp).buffer.take
      ((read_fill conn inp).bytes_read)) = none) :
    read_partial_request tui env fuel conn (some inp) d amt =
      .ok .WritingResponse
        (create_oneoff_response .RequestHeadersTooLarge (read_fill conn inp)
          (some "Request headers are too long. The total size must be less than 4KB.".toList)).2.1
        d [HttpStatus.RequestHeadersTooLarge.code] := by
  simp only [read_partial_request]
  rw [if_neg hr0, if_pos hfull, hnb]
  rfl

/-- Once the queued response bytes have all been accepted by the stream, a
keep-alive connection goes back to reading the next request. -/
theorem write_partial_final_response_keep_alive (conn : HttpConnection)
    (amt : Nat) (hka : conn.keep_alive = true)
    (hdone : conn.bytes_requested ≤ conn.bytes_sent + amt) :
    (write_partial_final_response conn amt).1 = .ReadingRequest := by
  unfold write_partial_final_response write_partial_response
  cases hr : conn.response with
  | none => simp [hka]
  | some resp =>
    have hd : decide (amt = 0 ∨ conn.bytes_requested ≤ conn.bytes_sent + amt)
        = true := decide_eq_true (Or.inr hdone)
    simp only [hr]
    simp [hd, hka]

/-- Claim C7 (amended): when the fixed 4096-byte header buffer fills
completely without the header/body boundary being located, the connection
receives the 431 headers-too-large one-off response — but it is not forced
closed: keep_alive (true since construction) is left untouched by this
path, and once the response bytes have been flushed a keep-alive
connection resets and returns to ReadingRequest rather than Closing. -/
theorem header_overflow_431_keeps_alive (tui : HttpTui) (env : FsEnv)
    (fuel : Nat) (conn : HttpConnection) (inp : List Nat) (d : Disk)
    (amt : Nat)
    (hr0 : ¬ min inp.length (BUFFER_SIZE - conn.bytes_read) = 0)
    (hfull : (read_fill conn inp).bytes_read = BUFFER_SIZE)
    (hnb : find_body_start ((read_fill conn inp).buffer.take
      ((read_fill conn inp).bytes_read)) = none)
    (hka : conn.keep_alive = true) :
    ∃ conn₂,
      read_partial_request tui env fuel conn (some inp) d amt =
        .ok .WritingResponse conn₂ d
          [HttpStatus.RequestHeadersTooLarge.code] ∧
      conn₂.response.map HttpResponse.status =
        some .RequestHeadersTooLarge ∧
      conn₂.keep_alive = true ∧
      ∀ amt₂, conn₂.bytes_requested ≤ conn₂.bytes_sent + amt₂ →
        (write_partial_final_response conn₂ amt₂).1 = .ReadingRequest := by
  refine ⟨_,
    read_partial_request_full_no_boundary tui env fuel conn inp d amt
      hr0 hfull hnb, rfl, hka, ?_⟩
  intro amt₂ h₂
  exact write_partial_final_response_keep_alive _ amt₂ hka h₂

/-- The C7 hypotheses hold at the fixture: the one-byte read fills the
4095-byte prefix to 4096 and no boundary exists, so the 431 path keeps
the connection alive. -/
theorem header_overflow_431_keeps_alive_witness :
    ∃ conn₂,
      read_partial_request tuiW envFile 1 conn4095 (some [65]) dEmpty 0 =
        .ok .WritingResponse conn₂ dEmpty
          [HttpStatus.RequestHeadersTooLarge.code] ∧
      conn₂.response.map HttpResponse.status =
        some .RequestHeadersTooLarge ∧
      conn₂.keep_alive = true ∧
      ∀ amt₂, conn₂.bytes_requested ≤ conn₂.bytes_sent + amt₂ →
        (write_partial_final_response conn₂ amt₂).1 = .ReadingRequest :=
  header_overflow_431_keeps_alive tuiW envFile 1 conn4095 [65] dEmpty 0
    (by decide) conn4095_fill_bytes conn4095_no_boundary rfl

/-- Claim C7 counterexample: a connection whose buffer fills with 4096
boundary-free bytes is answered 431 yet is not forced closed — keep_alive
is still true, and flushing the response sends the connection back to
ReadingRequest, not Closing. -/
theorem header_overflow_431_counterexample :
    svc_sends (read_partial_request tuiW envFile 1 conn4095 (some [65])
        dEmpty 0) = [431] ∧
    (svc_conn (read_partial_request tuiW envFile 1 conn4095 (some [65])
        dEmpty 0)).keep_alive = true ∧
    ¬ (write_partial_final_response
        (svc_conn (read_partial_request tuiW envFile 1 conn4095 (some [65])
          dEmpty 0)) 1000).1 = .Closing ∧
    (write_partial_final_response
        (svc_conn (read_partial_request tuiW envFile 1 conn4095 (some [65])
          dEmpty 0)) 1000).1 = .ReadingRequest := by
  have h := read_partial_request_full_no_boundary tuiW envFile 1 conn4095
    [65] dEmpty 0 (by decide) conn4095_fill_bytes conn4095_no_boundary
  rw [h]
  refine ⟨rfl, rfl, ?_, ?_⟩
  · decide
  · decide

/-- The draining POST check never changes the request counter. -/
theorem check_partial_post_body_ok_num (fuel : Nat) (conn : HttpConnection)
    (d : Disk) :
    ∀ st c d₂ s, check_partial_post_body fuel conn d = .ok st c d₂ s →
      c.num_requests = conn.num_requests := by
  intro st c d₂ s h
  simp only [check_partial_post_body] at h
  split at h
  all_goals try split at h
  all_goals try split at h
  all_goals cases h
  all_goals rfl

/-- The draining POST check never reports an uncaught OS error. -/
theorem check_partial_post_body_no_ioerr (fuel : Nat) (conn : HttpConnection)
    (d : Disk) :
    ∀ e c d₂ s, check_partial_post_body fuel conn d = .ioerr e c d₂ s →
      False := by
  intro e c d₂ s h
  simp only [check_partial_post_body] at h
  split at h
  all_goals try split at h
  all_goals try split at h
  all_goals cases h

/-- The initial POST check never changes the request counter. -/
theorem check_partial_post_body_initial_ok_num (fuel : Nat)
    (req : HttpRequest) (conn : HttpConnection) (d : Disk) :
    ∀ st c d₂ s,
      check_partial_post_body_initial fuel req conn d = .ok st c d₂ s →
      c.num_requests = conn.num_requests := by
  intro st c d₂ s h
  simp only [check_partial_post_body_initial] at h
  split at h
  all_goals try split at h
  all_goals try split at h
  all_goals try split at h
  all_goals first
    | (cases h; rfl)
    | cases h
    | exact check_partial_post_body_ok_num fuel conn d st c d₂ s h

/-- The initial POST check never reports an uncaught OS error. -/
theorem check_partial_post_body_initial_no_ioerr (fuel : Nat)
    (req : HttpRequest) (conn : HttpConnection) (d : Disk) :
    ∀ e c d₂ s,
      check_partial_post_body_initial fuel req conn d = .ioerr e c d₂ s →
      False := by
  intro e c d₂ s h
  simp only [check_partial_post_body_initial] at h
  split at h
  all_goals try split at h
  all_goals try split at h
  all_goals try split at h
  all_goals first
    | cases h
    | exact check_partial_post_body_no_ioerr fuel conn d e c d₂ s h

/-- The POST handler never changes the request counter. -/
theorem handle_post_ok_num (tui : HttpTui) (env : FsEnv) (req : HttpRequest)
    (conn : HttpConnection) :
    ∀ r c, handle_post tui env req conn = .ok (r, c) →
      c.num_requests = conn.num_requests := by
  intro r c h
  simp only [handle_post] at h
  split at h
  all_goals try split at h
  all_goals try split at h
  all_goals try split at h
  all_goals cases h
  all_goals rfl

/-- Claim C9 (amended): every request that reaches
parse_and_service_request increments the connection's request counter by
exactly one, whatever the outcome — including malformed requests rejected
with 400 at decode time, error responses, and uncaught OS errors.  The
header-overflow 431 rejection, however, is produced before
parse_and_service_request runs and leaves the counter unchanged. -/
theorem request_counter_increment (tui : HttpTui) (env : FsEnv) (fuel : Nat)
    (conn₀ : HttpConnection) (d : Disk) (amt : Nat) :
    (∀ st c d₂ s,
      parse_and_service_request tui env fuel conn₀ d = .ok st c d₂ s →
      c.num_requests = conn₀.num_requests + 1) ∧
    (∀ e c d₂ s,
      parse_and_service_request tui env fuel conn₀ d = .ioerr e c d₂ s →
      c.num_requests = conn₀.num_requests + 1) ∧
    (∀ inp, ¬ min inp.length (BUFFER_SIZE - conn₀.bytes_read) = 0 →
      (read_fill conn₀ inp).bytes_read = BUFFER_SIZE →
      find_body_start ((read_fill conn₀ inp).buffer.take
        ((read_fill conn₀ inp).bytes_read)) = none →
      (svc_conn (read_partial_request tui env fuel conn₀ (some inp) d
        amt)).num_requests = conn₀.num_requests) := by
  refine ⟨?_, ?_, ?_⟩
  · intro st c d₂ s h
    simp only [parse_and_service_request] at h
    split at h
    · cases h; rfl
    · split at h
      · cases h; rfl
      · split at h
        · cases h; rfl
        · rename_i req hdec hdis xopt m hm
          split at h
          · split at h
            · cases h; rfl
            · cases h
          · rename_i result connX heq
            have hnum : connX.num_requests = conn₀.num_requests + 1 := by
              cases m with
              | POST => exact handle_post_ok_num tui env req _ result connX heq
              | GET =>
                rcases hg : handle_get tui env req with e2 | r2
                · simp only [hg, Except.map] at heq
                  cases heq
                · simp only [hg, Except.map] at heq
                  exact (congrArg
                    (fun p : HttpResult × HttpConnection => p.2.num_requests)
                    (Except.ok.inj heq)).symm
              | HEAD =>
                rcases hg : handle_get tui env req with e2 | r2
                · simp only [hg, Except.map] at heq
                  cases heq
                · simp only [hg, Except.map] at heq
                  exact (congrArg
                    (fun p : HttpResult × HttpConnection => p.2.num_requests)
                    (Except.ok.inj heq)).symm
            split at h
            all_goals first
              | (cases h; exact hnum)
              | exact (check_partial_post_body_initial_ok_num fuel req connX d
                  st c d₂ s h).trans hnum
  · intro e c d₂ s h
    simp only [parse_and_service_request] at h
    split at h
    · cases h
    · split at h
      · cases h
      · split at h
        · cases h
        · rename_i req hdec hdis xopt m hm
          split at h
          · split at h
            all_goals first
              | (cases h; rfl)
              | cases h
          · rename_i result connX heq
            split at h
            all_goals first
              | cases h
              | exact (check_partial_post_body_initial_no_ioerr fuel req connX
                  d e c d₂ s h).elim
  · intro inp hr0 hfull hnb
    rw [read_partial_request_full_no_boundary tui env fuel conn₀ inp d amt
      hr0 hfull hnb]
    rfl

/-- The C9 hypotheses hold at the fixture: a request whose head fails to
decode still bumps the counter by one, while the header-overflow 431
rejection of the same connection leaves it unchanged. -/
theorem request_counter_increment_witness :
    (svc_conn (parse_and_service_request tuiW envFile 1 conn4095
        dEmpty)).num_requests = conn4095.num_requests + 1 ∧
    (svc_conn (read_partial_request tuiW envFile 1 conn4095 (some [65])
        dEmpty 5)).num_requests = conn4095.num_requests :=
  ⟨(request_counter_increment tuiW envFile 1 conn4095 dEmpty 5).1
      (svc_state (parse_and_service_request tuiW envFile 1 conn4095 dEmpty))
      (svc_conn (parse_and_service_request tuiW envFile 1 conn4095 dEmpty))
      (svc_disk (parse_and_service_request tuiW envFile 1 conn4095 dEmpty))
      (svc_sends (parse_and_service_request tuiW envFile 1 conn4095 dEmpty))
      rfl,
   (request_counter_increment tuiW envFile 1 conn4095 dEmpty 5).2.2
      [65] (by decide) conn4095_fill_bytes conn4095_no_boundary⟩

/-- Claim C9 counterexample: the header-overflow rejection resolves the
connection's read with a 431 error response, yet the per-connection
request counter does not increase — parse_and_service_request is never
reached on this path. -/
theorem request_counter_431_counterexample :
    svc_sends (read_partial_request tuiW envFile 1 conn4095 (some [65])
        dEmpty 7) = [431] ∧
    svc_state (read_partial_request tuiW envFile 1 conn4095 (some [65])
        dEmpty 7) = .WritingResponse ∧
    (svc_conn (read_partial_request tuiW envFile 1 conn4095 (some [65])
        dEmpty 7)).num_requests = conn4095.num_requests := by
  have h := read_partial_request_full_no_boundary tuiW envFile 1 conn4095
    [65] dEmpty 7 (by decide) conn4095_fill_bytes conn4095_no_boundary
  rw [h]
  exact ⟨rfl, rfl, rfl⟩

end Hypershare
